import Mathlib

set_option maxRecDepth 1000000

/-!
Verification development for the GlowGo preference-extraction and
matching/ranking pipeline.  The Python source is shallowly embedded:
dictionaries become structures, `None` becomes `Option`, Python numbers
(floats used only for money, scores and distances) are modelled as exact
rationals `ℚ`, datetimes are modelled as minute counts (a day index `d`
and a minute-of-day `m` correspond to the absolute minute `d * 1440 + m`),
and Python's stable `list.sort(key=...)` is modelled by `List.insertionSort`
with the corresponding key relation (any stable sort computes the same
list, and insertion sort is stable for the key orders used here).
`round(x, 2)` is modelled by rounding to an integer number of hundredths;
Python rounds floats half-to-even while `round` on `ℚ` rounds half up, a
difference that only matters at exact half-cent values.
-/

namespace GlowGo

/-- Rounding to two decimal places, the model of Python `round(x, 2)`. -/
def round2 (q : ℚ) : ℚ := (round (q * 100) : ℤ) / 100

/-! ### Stable sorting toolkit

Python's `list.sort` is stable.  `List.insertionSort` with the key
relation `fun a b => key a ≤ key b` (ascending) or
`fun a b => key b ≤ key a` (descending, Python's `reverse=True`) is the
same stable sort.  The lemmas below give sortedness, permutation and the
stability characterisation: filtering the output by any fixed key value
returns exactly the input elements with that key, in input order.  The
lemmas are in the proof section at the end of the file. -/

/-! ### Ranking Engine

Embedding of `RankingAgent.execute`
(`services/agents/ranking_agent.py`).  Of each candidate dict the method
reads `rating`, `price`, `available_slots` (only its length is used, so it
is modelled as a count) and `distance_miles`; `candidate.get("distance_miles", 0)`
followed by a truthiness test is modelled as an `Option` with default `0`
and a `≠ 0` test.  `user_preferences.get("budget_max", 999999)` becomes
an `Option` with default `999999`. -/

structure RankCandidate where
  rating : ℚ
  price : ℚ
  slots_count : ℕ
  distance_miles : Option ℚ
  deriving DecidableEq, Repr

structure RankPrefs where
  budget_max : Option ℚ
  deriving DecidableEq, Repr

structure RankedProvider where
  candidate : RankCandidate
  overall_score : ℚ
  rating_score : ℚ
  price_score : ℚ
  availability_score : ℚ
  distance_score : ℚ
  recommendation_reason : String
  deriving DecidableEq, Repr

namespace RankingAgent

/-- Score one candidate, as in the loop body of `RankingAgent.execute`. -/
def scoreCandidate (prefs : RankPrefs) (c : RankCandidate) : RankedProvider :=
  let rating := c.rating
  let price := c.price
  let budget_max := prefs.budget_max.getD 999999
  let rating_score := rating / 5
  let price_score : ℚ := if price ≤ budget_max then 1 else 0
  let availability_score : ℚ := min ((c.slots_count : ℚ) / 3) 1
  let distance := c.distance_miles.getD 0
  let distance_score : ℚ := if distance ≠ 0 then max (1 - distance / 10) 0 else 1/2
  let overall_score :=
    (rating_score * (40/100) + price_score * (30/100) +
      availability_score * (20/100) + distance_score * (10/100)) * 100
  let explanation_parts :=
    (if (45/10 : ℚ) ≤ rating then ["Top-rated"] else []) ++
    (if price ≤ budget_max then ["Within budget"] else []) ++
    (if 0 < c.slots_count then ["Available"] else [])
  { candidate := c
    overall_score := round2 overall_score
    rating_score := round2 rating_score
    price_score := round2 price_score
    availability_score := round2 availability_score
    distance_score := round2 distance_score
    recommendation_reason :=
      if explanation_parts = [] then "Good match"
      else String.intercalate ", " explanation_parts }

/-- `RankingAgent.execute`: score the first ten candidates and sort the
results by `overall_score` descending (Python's stable `sort` with
`reverse=True`). -/
def execute (prefs : RankPrefs) (candidates : List RankCandidate) :
    List RankedProvider :=
  List.insertionSort (fun a b => b.overall_score ≤ a.overall_score)
    ((candidates.take 10).map (scoreCandidate prefs))

end RankingAgent

/-! ### Budget filter

Embedding of `BudgetFilterTool.execute`
(`services/tools/matching_tools.py`).  `service.get("base_price", 0)` is
modelled as `Option ℚ` with default `0`; `float('inf')` for an unset
`budget_max` is modelled by making the upper-bound test vacuous. -/

structure Service where
  id : ℕ
  base_price : Option ℚ
  deriving DecidableEq, Repr

namespace BudgetFilterTool

def priceOf (s : Service) : ℚ := s.base_price.getD 0

/-- The widened-range membership test of the filter loop:
`flexible_min <= price <= flexible_max` with
`flexible_max = budget_max * 1.1` (or plus infinity) and
`flexible_min = budget_min * 0.9` (or `0`). -/
def withinFlexible (budget_min budget_max : Option ℚ) (price : ℚ) : Bool :=
  let minOk : Bool :=
    match budget_min with
    | some m => decide (m * (9/10) ≤ price)
    | none => decide ((0 : ℚ) ≤ price)
  let maxOk : Bool :=
    match budget_max with
    | some m => decide (price ≤ m * (11/10))
    | none => true
  minOk && maxOk

def execute (budget_min budget_max : Option ℚ) (services : List Service) :
    List Service :=
  if services = [] then []
  else if budget_min = none ∧ budget_max = none then
    List.insertionSort (fun a b => priceOf a ≤ priceOf b) services
  else
    List.insertionSort (fun a b => priceOf a ≤ priceOf b)
      (services.filter (fun s => withinFlexible budget_min budget_max (priceOf s)))

end BudgetFilterTool

/-! ### Location filter

Embedding of `LocationFilterTool.execute` and `_haversine_distance`
(`services/tools/matching_tools.py`).  Coordinates and distances are real
numbers; `math.radians`, `sin`, `cos`, `asin` and `sqrt` are the
corresponding real functions, so these definitions are noncomputable. -/

structure GeoService where
  id : ℕ
  location_lat : Option ℝ
  location_lon : Option ℝ
  distance_miles : Option ℝ

namespace LocationFilterTool

/-- `LocationFilterTool._haversine_distance`, Earth radius 3959 miles. -/
noncomputable def haversine_distance (lat1 lon1 lat2 lon2 : ℝ) : ℝ :=
  let R : ℝ := 3959
  let lat1_rad := lat1 * (Real.pi / 180)
  let lon1_rad := lon1 * (Real.pi / 180)
  let lat2_rad := lat2 * (Real.pi / 180)
  let lon2_rad := lon2 * (Real.pi / 180)
  let dlat := lat2_rad - lat1_rad
  let dlon := lon2_rad - lon1_rad
  let a := Real.sin (dlat / 2) ^ 2 +
    Real.cos lat1_rad * Real.cos lat2_rad * Real.sin (dlon / 2) ^ 2
  let c := 2 * Real.arcsin (Real.sqrt a)
  R * c

/-- Model of Python `round(x, 2)` on a real distance. -/
noncomputable def round2R (x : ℝ) : ℝ := (round (x * 100) : ℤ) / 100

/-- `LocationFilterTool.execute`: with no user coordinates everything
passes through unchanged; otherwise drop providers without coordinates,
keep those within `max_distance`, record the rounded distance, and sort
ascending by it. -/
noncomputable def execute (user_lat user_lon : Option ℝ) (max_distance : ℝ)
    (providers : List GeoService) : List GeoService :=
  match user_lat, user_lon with
  | some ulat, some ulon =>
    let providers_with_distance := providers.filterMap (fun p =>
      match p.location_lat, p.location_lon with
      | some plat, some plon =>
        let distance := haversine_distance ulat ulon plat plon
        if distance ≤ max_distance then
          some { p with distance_miles := some (round2R distance) }
        else none
      | _, _ => none)
    List.insertionSort
      (fun a b => a.distance_miles.getD 0 ≤ b.distance_miles.getD 0)
      providers_with_distance
  | _, _ => providers

end LocationFilterTool

/-! ### Double-booking preventor and calendar slot generation

Embedding of `DoubleBookingPreventorTool.execute` and
`CalendarQueryTool._calculate_available_slots`
(`services/tools/availability_tools.py`).  A datetime is an absolute
minute count; a booking's date is a day index and its times are minutes
of the day, so `datetime.combine(date, time)` is `date * 1440 + time`. -/

structure Booking where
  date : Option ℕ
  start_time : Option ℕ
  end_time : Option ℕ
  deriving DecidableEq, Repr

namespace DoubleBookingPreventorTool

/-- The booking interval the tool checks against: bookings without a date
or a start time are skipped (`continue`), and a missing end time means
one hour after the start. -/
def bookingWindow (b : Booking) : Option (ℕ × ℕ) :=
  match b.date, b.start_time with
  | some d, some st =>
    let booking_start := d * 1440 + st
    let booking_end :=
      match b.end_time with
      | some et => d * 1440 + et
      | none => booking_start + 60
    some (booking_start, booking_end)
  | _, _ => none

/-- Overlap test of the tool:
`slot_start < booking_end and slot_end > booking_start`. -/
def conflicts (slot_start slot_end : ℕ) (b : Booking) : Bool :=
  match bookingWindow b with
  | some (bs, be) => decide (slot_start < be) && decide (bs < slot_end)
  | none => false

/-- `DoubleBookingPreventorTool.execute`: returns `is_available`, i.e.
whether no booking conflicts with `[slot, slot + service_duration)`. -/
def execute (slot : ℕ) (service_duration : ℕ) (all_bookings : List Booking) :
    Bool :=
  all_bookings.all (fun b => ! conflicts slot (slot + service_duration) b)

end DoubleBookingPreventorTool

namespace AvailabilityAgent

/-- Step 5 of `AvailabilityAgent.execute`: keep exactly the matching
slots the preventor reports as available. -/
def validateSlots (matching_slots : List ℕ) (service_duration : ℕ)
    (booked_times : List Booking) : List ℕ :=
  matching_slots.filter
    (fun s => DoubleBookingPreventorTool.execute s service_duration booked_times)

end AvailabilityAgent

/-- A `booked_times` row of `CalendarQueryTool`: rows always carry a date
and a start time; the end time may be missing. -/
structure BookedTime where
  date : ℕ
  start_time : ℕ
  end_time : Option ℕ
  deriving DecidableEq, Repr

namespace CalendarQueryTool

/-- Overlap test of `_calculate_available_slots` for one booking of the
slot's day (all times are minutes of that day): the slot is NOT free when
`not (slot_end <= booking_start or slot_start >= booking_end)`, with a
missing end time meaning one hour after the start. -/
def slotBlocked (slot_start slot_end : ℕ) (b : BookedTime) : Bool :=
  let booking_start := b.start_time
  let booking_end :=
    match b.end_time with
    | some et => et
    | none => b.start_time + 60
  ! (decide (slot_end ≤ booking_start) || decide (booking_end ≤ slot_start))

/-- The inner while loop of `_calculate_available_slots` for one day:
30-minute slots from 9:00 (minute 540) up to 18:00 (minute 1080), kept
when free of all of the day's bookings (the `slot_end <= end_time` guard
is always true for these starts). -/
def daySlots (day : ℕ) (booked_times : List BookedTime) : List (ℕ × ℕ) :=
  let day_bookings := booked_times.filter (fun b => b.date = day)
  ((List.range 18).map (fun i => 540 + 30 * i)).filterMap
    (fun st =>
      if day_bookings.all (fun b => ! slotBlocked st (st + 30) b) then
        some (day, st)
      else none)

/-- `_calculate_available_slots`: iterate the days from `startDay` to
`endDay` inclusive. -/
def calcAvailableSlots (startDay endDay : ℕ) (booked_times : List BookedTime) :
    List (ℕ × ℕ) :=
  ((List.range (endDay + 1 - startDay)).map (fun i => startDay + i)).flatMap
    (fun day => daySlots day booked_times)

end CalendarQueryTool

/-- Fill in the one-hour default end time of a booking that has a date
and a start time but no end time (used to state what the double-booking
check assumes about such bookings). -/
def normalizeBooking (b : Booking) : Booking :=
  match b.date, b.start_time, b.end_time with
  | some _, some st, none => { b with end_time := some (st + 60) }
  | _, _, _ => b

/-- Fill in the one-hour default end time of a calendar booking row. -/
def normalizeBookedTime (b : BookedTime) : BookedTime :=
  match b.end_time with
  | none => { b with end_time := some (b.start_time + 60) }
  | some _ => b

/-! ### Character and scanning toolkit

The preference extractor works on raw strings with Python `re` patterns.
Strings are modelled as `List Char`; each pattern used by the source is
embedded as a hand-rolled scanner with the same semantics (leftmost
match, greedy quantifiers; backtracking is spelled out at the few places
where it can change the result).  Python `\d` is a decimal digit, `\s` a
whitespace character, `\w` a word character and `\b` a word boundary. -/

/-- The apostrophe character, written via its code point. -/
def apoC : Char := Char.ofNat 39

/-- The apostrophe as a one-character string. -/
def apoS : String := String.mk [apoC]

def isDigitChar (c : Char) : Bool := 48 ≤ c.toNat && c.toNat ≤ 57

def isSpaceChar (c : Char) : Bool := c = ' ' || c = Char.ofNat 9 || c = Char.ofNat 10 || c = Char.ofNat 13

def isWordChar (c : Char) : Bool :=
  isDigitChar c || (97 ≤ c.toNat && c.toNat ≤ 122) ||
    (65 ≤ c.toNat && c.toNat ≤ 90) || c = '_'

/-- ASCII lower-casing, the model of Python `str.lower()` on the ASCII
texts this pipeline handles. -/
def toLowerChar (c : Char) : Char :=
  if 65 ≤ c.toNat && c.toNat ≤ 90 then Char.ofNat (c.toNat + 32) else c

def lowerStr (s : List Char) : List Char := s.map toLowerChar

/-- Case-insensitive prefix test: does `s` start with the (lowercase)
pattern `w`? -/
def matchCI : List Char → List Char → Bool
  | [], _ => true
  | _ :: _, [] => false
  | p :: ps, c :: cs => (toLowerChar c = p) && matchCI ps cs

/-- Literal prefix test (for text that is already lower-cased). -/
def matchLit : List Char → List Char → Bool
  | [], _ => true
  | _ :: _, [] => false
  | p :: ps, c :: cs => (c = p) && matchLit ps cs

/-- Case-insensitive substring test. -/
def hasInfixCI (w : List Char) : List Char → Bool
  | [] => matchCI w []
  | c :: cs => matchCI w (c :: cs) || hasInfixCI w cs

/-- Literal substring test, the model of Python `w in text`. -/
def hasSub (w : List Char) : List Char → Bool
  | [] => matchLit w []
  | c :: cs => matchLit w (c :: cs) || hasSub w cs

/-- Substring test on `String`s. -/
def strIn (w text : String) : Bool := hasSub w.data text.data

/-- Greedy `\s*`.  In every pattern of the source, `\s*`/`\s+` is
followed by a character class disjoint from whitespace, so the greedy
skip never needs to backtrack. -/
def skipSpaces : List Char → List Char
  | [] => []
  | c :: cs => if isSpaceChar c then skipSpaces cs else c :: cs

/-- Greedy `\d+` digit run, returning run and rest. -/
def takeDigits : List Char → List Char × List Char
  | [] => ([], [])
  | c :: cs =>
    if isDigitChar c then
      let p := takeDigits cs
      (c :: p.1, p.2)
    else ([], c :: cs)

def digitVal (c : Char) : ℕ := c.toNat - 48

def digitsToNat (ds : List Char) : ℕ :=
  ds.foldl (fun acc c => 10 * acc + digitVal c) 0

/-- Optional cents part `(?:\.\d{2})?` after an integer amount. -/
def amountWithCents (n : ℕ) (l : List Char) : ℚ × List Char :=
  match l with
  | '.' :: d1 :: d2 :: rest2 =>
    if isDigitChar d1 && isDigitChar d2 then
      ((n : ℚ) + ((10 * digitVal d1 + digitVal d2 : ℕ) : ℚ) / 100, rest2)
    else ((n : ℚ), '.' :: d1 :: d2 :: rest2)
  | other => ((n : ℚ), other)

/-- The amount pattern `\d+(?:\.\d{2})?` as a `float(...)` value.
`\d+` takes the whole digit run; giving digits back can never help
because the continuation after the group starts with `.`, a separator or
`$`, never a digit, so the greedy parse is exact. -/
def parseAmount (s : List Char) : Option (ℚ × List Char) :=
  let p := takeDigits s
  if p.1 = [] then none
  else some (amountWithCents (digitsToNat p.1) p.2)

/-- Word boundary on the left: start of string or a non-word character. -/
def boundaryBefore : Option Char → Bool
  | none => true
  | some c => ! isWordChar c

/-- Word boundary on the right: end of string or a non-word character. -/
def boundaryAfter : List Char → Bool
  | [] => true
  | c :: _ => ! isWordChar c

/-- One pass of `re.sub(r"\b" ++ w ++ r"\b", r, s, flags=re.IGNORECASE)`
for a nonempty literal word `w` (possibly containing spaces or hyphens,
which sit between the `\b` anchors unchanged).  `prev` is the character
of the original string to the left of the scan position.  The `w ≠ []`
fuel argument (instantiated with the input length, which stays
sufficient since every step consumes at least one character for the
nonempty words the source substitutes) only makes the scan structurally
recursive; an exhausted fuel returns the rest unchanged. -/
def subWordGoF (w r : List Char) : ℕ → Option Char → List Char → List Char
  | 0, _, s => s
  | _ + 1, _, [] => []
  | fuel + 1, prev, c :: cs =>
    if boundaryBefore prev && matchCI w (c :: cs) &&
        boundaryAfter ((c :: cs).drop w.length) then
      r ++ subWordGoF w r fuel (some (w.getLastD c)) ((c :: cs).drop w.length)
    else
      c :: subWordGoF w r fuel (some c) cs

def subWord (w r s : List Char) : List Char := subWordGoF w r s.length none s


/-! ### Budget extraction

Embedding of `PreferenceExtractorTool._extract_budget`
(`services/tools/conversation_tools.py`).  `numbers_dicts` is the merged
Python dict `{ **minute_words, **time_word_to_num }` in its iteration
order (keys in first-occurrence order, overlapping values taken from
`time_word_to_num`). -/

def numbers_dicts : List (String × String) := [ ("oh five", "05"), ("o five", "05"),
  ("five", "5"), ("ten", "10"), ("fifteen", "15"), ("twenty", "20"), ("thirty", "30"),
  ("forty", "40"), ("forty-five", "45"), ("fifty", "50"), ("zero", "0"), ("hundred", "100"),
  ("one", "1"), ("two", "2"), ("three", "3"), ("four", "4"), ("six", "6"), ("seven", "7"),
  ("eight", "8"), ("nine", "9"), ("eleven", "11"), ("twelve", "12"), ("thirteen", "13"),
  ("fourteen", "14"), ("sixteen", "16"), ("seventeen", "17"), ("eighteen", "18"),
  ("nineteen", "19"), ("twenty-one", "21"), ("twenty-two", "22"), ("twenty-three", "23"),
  ("twenty-four", "24"), ("twenty-five", "25"), ("twenty-six", "26"), ("twenty-seven", "27"),
  ("twenty-eight", "28"), ("twenty-nine", "29"), ("thirty-one", "31"), ("thirty-two", "32"),
  ("thirty-three", "33"), ("thirty-four", "34"), ("thirty-five", "35"), ("thirty-six", "36"),
  ("thirty-seven", "37"), ("thirty-eight", "38"), ("thirty-nine", "39"), ("forty-one", "41"),
  ("forty-two", "42"), ("forty-three", "43"), ("forty-four", "44"), ("forty-six", "46"),
  ("forty-seven", "47"), ("forty-eight", "48"), ("forty-nine", "49"), ("fifty-one", "51"),
  ("fifty-two", "52"), ("fifty-three", "53"), ("fifty-four", "54"), ("fifty-five", "55"),
  ("fifty-six", "56"), ("fifty-seven", "57"), ("fifty-eight", "58"), ("fifty-nine", "59"),
  ("sixty", "60"), ("sixty-one", "61"), ("sixty-two", "62"), ("sixty-three", "63"),
  ("sixty-four", "64"), ("sixty-five", "65"), ("sixty-six", "66"), ("sixty-seven", "67"),
  ("sixty-eight", "68"), ("sixty-nine", "69"), ("seventy", "70"), ("seventy-one", "71"),
  ("seventy-two", "72"), ("seventy-three", "73"), ("seventy-four", "74"),
  ("seventy-five", "75"), ("seventy-six", "76"), ("seventy-seven", "77"),
  ("seventy-eight", "78"), ("seventy-nine", "79"), ("eighty", "80"), ("eighty-one", "81"),
  ("eighty-two", "82"), ("eighty-three", "83"), ("eighty-four", "84"), ("eighty-five", "85"),
  ("eighty-six", "86"), ("eighty-seven", "87"), ("eighty-eight", "88"), ("eighty-nine", "89"),
  ("ninety", "90"), ("ninety-one", "91"), ("ninety-two", "92"), ("ninety-three", "93"),
  ("ninety-four", "94"), ("ninety-five", "95"), ("ninety-six", "96"), ("ninety-seven", "97"),
  ("ninety-eight", "98"), ("ninety-nine", "99"), ("thousand", "1000")]

def time_word_to_num : List (String × String) := [ ("zero", "0"), ("one", "1"), ("two", "2"),
  ("three", "3"), ("four", "4"), ("five", "5"), ("six", "6"), ("seven", "7"), ("eight", "8"),
  ("nine", "9"), ("ten", "10"), ("eleven", "11"), ("twelve", "12"), ("thirteen", "13"),
  ("fourteen", "14"), ("fifteen", "15"), ("sixteen", "16"), ("seventeen", "17"),
  ("eighteen", "18"), ("nineteen", "19"), ("twenty", "20"), ("twenty-one", "21"),
  ("twenty-two", "22"), ("twenty-three", "23"), ("twenty-four", "24"), ("twenty-five", "25"),
  ("twenty-six", "26"), ("twenty-seven", "27"), ("twenty-eight", "28"), ("twenty-nine", "29"),
  ("thirty", "30"), ("thirty-one", "31"), ("thirty-two", "32"), ("thirty-three", "33"),
  ("thirty-four", "34"), ("thirty-five", "35"), ("thirty-six", "36"), ("thirty-seven", "37"),
  ("thirty-eight", "38"), ("thirty-nine", "39"), ("forty", "40"), ("forty-one", "41"),
  ("forty-two", "42"), ("forty-three", "43"), ("forty-four", "44"), ("forty-five", "45"),
  ("forty-six", "46"), ("forty-seven", "47"), ("forty-eight", "48"), ("forty-nine", "49"),
  ("fifty", "50"), ("fifty-one", "51"), ("fifty-two", "52"), ("fifty-three", "53"),
  ("fifty-four", "54"), ("fifty-five", "55"), ("fifty-six", "56"), ("fifty-seven", "57"),
  ("fifty-eight", "58"), ("fifty-nine", "59"), ("sixty", "60"), ("sixty-one", "61"),
  ("sixty-two", "62"), ("sixty-three", "63"), ("sixty-four", "64"), ("sixty-five", "65"),
  ("sixty-six", "66"), ("sixty-seven", "67"), ("sixty-eight", "68"), ("sixty-nine", "69"),
  ("seventy", "70"), ("seventy-one", "71"), ("seventy-two", "72"), ("seventy-three", "73"),
  ("seventy-four", "74"), ("seventy-five", "75"), ("seventy-six", "76"),
  ("seventy-seven", "77"), ("seventy-eight", "78"), ("seventy-nine", "79"), ("eighty", "80"),
  ("eighty-one", "81"), ("eighty-two", "82"), ("eighty-three", "83"), ("eighty-four", "84"),
  ("eighty-five", "85"), ("eighty-six", "86"), ("eighty-seven", "87"), ("eighty-eight", "88"),
  ("eighty-nine", "89"), ("ninety", "90"), ("ninety-one", "91"), ("ninety-two", "92"),
  ("ninety-three", "93"), ("ninety-four", "94"), ("ninety-five", "95"), ("ninety-six", "96"),
  ("ninety-seven", "97"), ("ninety-eight", "98"), ("ninety-nine", "99"), ("hundred", "100"),
  ("thousand", "1000")]

def minute_words : List (String × String) := [ ("oh five", "05"), ("o five", "05"),
  ("five", "05"), ("ten", "10"), ("fifteen", "15"), ("twenty", "20"), ("thirty", "30"),
  ("forty", "40"), ("forty-five", "45"), ("fifty", "50"), ("zero", "00"), ("hundred", "00")]

/-- The word-number-to-digit pre-pass of `_extract_budget`. -/
def convert_word_numbers (s : List Char) : List Char :=
  numbers_dicts.foldl (fun acc p => subWord p.1.data p.2.data acc) s

/-- Try the listed literal alternatives in order at the current
position; on success return the rest of the string after the match. -/
def matchAlts : List (List Char) → List Char → Option (List Char)
  | [], _ => none
  | a :: more, s => if matchLit a s then some (s.drop a.length) else matchAlts more s

/-- Alternatives of the "up to" pattern, in the regex order
`up to|under|less than|below|not more than|max(?:imum)?` (the greedy
optional suffix is the pair maximum-before-max). -/
def upToAlts : List String :=
  ["up to", "under", "less than", "below", "not more than", "maximum", "max"]

/-- Attempt of the pattern
`(?:up to|...|max(?:imum)?)\s*\$?\s*(\d+(?:\.\d{2})?)` at one position.
If a present `$` is consumed but no digits follow, the branch without
`$` fails at the `$` itself, so no backtracking is needed. -/
def tryUpToAt (s : List Char) : Option ℚ :=
  match matchAlts (upToAlts.map String.data) s with
  | none => none
  | some r0 =>
    let r1 := skipSpaces r0
    let r2 := match r1 with
      | '$' :: r => r
      | _ => r1
    let r3 := skipSpaces r2
    match parseAmount r3 with
    | some p => some p.1
    | none => none

/-- `re.search` of the "up to" pattern: leftmost position that matches. -/
def searchUpTo : List Char → Option ℚ
  | [] => none
  | c :: cs =>
    match tryUpToAt (c :: cs) with
    | some v => some v
    | none => searchUpTo cs

/-- `re.findall(r"\$\s*(\d+(?:\.\d{2})?)", text)`: scan left to right,
continue after each non-overlapping match.  As for the other scanners,
the fuel (instantiated with the input length, which every scan step
keeps sufficient) only makes the recursion structural. -/
def findDollarAmountsF : ℕ → List Char → List ℚ
  | 0, _ => []
  | _ + 1, [] => []
  | fuel + 1, c :: cs =>
    if c = '$' then
      match parseAmount (skipSpaces cs) with
      | some (v, rest) => v :: findDollarAmountsF fuel rest
      | none => findDollarAmountsF fuel cs
    else findDollarAmountsF fuel cs

def findDollarAmounts (s : List Char) : List ℚ := findDollarAmountsF s.length s

/-- Attempt of `(\d+(?:\.\d{2})?)\s*\$` at one position.  Giving back
digits from `\d+` cannot help: the following character would be a digit,
matching neither `\.`, `\s` nor `\$`. -/
def tryTrailingAt (s : List Char) : Option (ℚ × List Char) :=
  match parseAmount s with
  | none => none
  | some (v, rest) =>
    match skipSpaces rest with
    | '$' :: r3 => some (v, r3)
    | _ => none

/-- `re.findall(r"(\d+(?:\.\d{2})?)\s*\$", text)`. -/
def findTrailingDollarF : ℕ → List Char → List ℚ
  | 0, _ => []
  | _ + 1, [] => []
  | fuel + 1, c :: cs =>
    match tryTrailingAt (c :: cs) with
    | some (v, rest) => v :: findTrailingDollarF fuel rest
    | none => findTrailingDollarF fuel cs

def findTrailingDollar (s : List Char) : List ℚ := findTrailingDollarF s.length s

/-- Keyword alternatives of the budget-context pattern
`dollars?|bucks?|budget` with greedy optional plurals. -/
def budgetKwAlts : List String := ["dollars", "dollar", "bucks", "buck", "budget"]

/-- Attempt of `(\d+(?:\.\d{2})?)\s*(?:dollars?|bucks?|budget)` at one
position. -/
def tryBudgetKwAt (s : List Char) : Option (ℚ × List Char) :=
  match parseAmount s with
  | none => none
  | some (v, rest) =>
    match matchAlts (budgetKwAlts.map String.data) (skipSpaces rest) with
    | some r3 => some (v, r3)
    | none => none

/-- `re.findall` of the budget-context pattern. -/
def findBudgetContextF : ℕ → List Char → List ℚ
  | 0, _ => []
  | _ + 1, [] => []
  | fuel + 1, c :: cs =>
    match tryBudgetKwAt (c :: cs) with
    | some (v, rest) => v :: findBudgetContextF fuel rest
    | none => findBudgetContextF fuel cs

def findBudgetContext (s : List Char) : List ℚ := findBudgetContextF s.length s

/-- Attempt of the range pattern
`(\d+(?:\.\d{2})?)\s*(?:-|to)\s*(\d+(?:\.\d{2})?)` at one position,
returning the two group values and the matched length.  As for the other
amount patterns, `\d+` backtracking cannot help because the characters a
shorter run would expose are digits. -/
def tryRangeAt (s : List Char) : Option (ℚ × ℚ × ℕ) :=
  match parseAmount s with
  | none => none
  | some (v1, r1) =>
    let sep : Option (List Char) :=
      match skipSpaces r1 with
      | '-' :: r => some r
      | 't' :: 'o' :: r => some r
      | _ => none
    match sep with
    | none => none
    | some r3 =>
      match parseAmount (skipSpaces r3) with
      | none => none
      | some (v2, r5) => some (v1, v2, s.length - r5.length)

/-- `re.search` of the range pattern, also reporting `start()`/`end()`. -/
def searchRangeGo (pos : ℕ) : List Char → Option (ℚ × ℚ × ℕ × ℕ)
  | [] => none
  | c :: cs =>
    match tryRangeAt (c :: cs) with
    | some (v1, v2, consumed) => some (v1, v2, pos, pos + consumed)
    | none => searchRangeGo (pos + 1) cs

def searchRange (s : List Char) : Option (ℚ × ℚ × ℕ × ℕ) := searchRangeGo 0 s

def time_indicators : List String :=
  ["am", "pm", "between", "available", "open", "hours", "time",
    "o" ++ apoS ++ "clock", "oclock"]

def budget_context_words : List String :=
  ["budget", "price", "cost", "dollar", "$", "pay", "spend", "afford"]

/-- The time-indicator window test of the range branch: 15 characters
before the match and 10 after, taken from the converted text and then
lower-cased. -/
def range_has_time_context (text_converted : List Char) (mstart mend : ℕ) : Bool :=
  let text_before := lowerStr ((text_converted.take mstart).drop (mstart - 15))
  let text_after := lowerStr ((text_converted.drop mend).take 10)
  time_indicators.any (fun ind => hasSub ind.data text_before || hasSub ind.data text_after)

/-- `has_budget_context`: a currency/budget keyword anywhere in the
message. -/
def range_has_budget_context (text_lower : List Char) : Bool :=
  budget_context_words.any (fun w => hasSub w.data text_lower)

/-- The `is_likely_time_range` decision of `_extract_budget`: skip the
numeric range as a budget when it looks like a clock-time range. -/
def is_likely_time_range (min_val max_val : ℚ)
    (has_time_context has_budget_context : Bool) : Bool :=
  let is_small_range := decide (min_val < 24) && decide (max_val < 24)
  let is_likely_budget_range := decide (25 ≤ max_val)
  (is_small_range && has_time_context) ||
    (is_small_range && !has_budget_context && !is_likely_budget_range)

/-- The range branch of `_extract_budget`: the time-vs-budget
disambiguation around a matched numeric range.  Returns the budget
bounds when the range is accepted, `none` when there is no range match
or the range looks like a clock-time range. -/
def rangeBranch (text_converted text_lower : List Char) : Option (ℚ × ℚ) :=
  match searchRange text_lower with
  | none => none
  | some (min_val, max_val, mstart, mend) =>
    if is_likely_time_range min_val max_val
        (range_has_time_context text_converted mstart mend)
        (range_has_budget_context text_lower) then none
    else some (min min_val max_val, max min_val max_val)

def around_words : List String := ["around", "about", "approximately"]

def upto_kw_words : List String :=
  ["up to", "max", "maximum", "under", "less than", "below", "not more than"]

def atleast_kw_words : List String :=
  ["at least", "min", "minimum", "over", "more than", "above"]

def listMin (x : ℚ) (l : List ℚ) : ℚ := l.foldl min x

def listMax (x : ℚ) (l : List ℚ) : ℚ := l.foldl max x

/-- The final branch of `_extract_budget` on the combined amount list:
the two-or-more-amounts range, then the around/up-to/at-least qualifier
keywords, then the bare-amount default. -/
def amountsFallback (text_converted text_lower : List Char) :
    List ℚ → Option ℚ × Option ℚ
  | [] => (none, none)
  | amount :: more =>
    if decide (1 ≤ more.length) &&
        (hasSub ['-'] text_converted || hasSub ['t', 'o'] text_lower) then
      (some (listMin amount more), some (listMax amount more))
    else if around_words.any (fun w => hasSub w.data text_lower) then
      (some (amount * (8/10)), some (amount * (12/10)))
    else if upto_kw_words.any (fun w => hasSub w.data text_lower) then
      (some 0, some amount)
    else if atleast_kw_words.any (fun w => hasSub w.data text_lower) then
      (some amount, none)
    else (none, some amount)

/-- `PreferenceExtractorTool._extract_budget`, returning
`(budget_min, budget_max)`. -/
def extract_budget (text : List Char) : Option ℚ × Option ℚ :=
  let text_converted := convert_word_numbers text
  let text_lower := lowerStr text_converted
  match searchUpTo text_lower with
  | some amount => (some 0, some amount)
  | none =>
    let dollar_amounts := findDollarAmounts text_converted ++ findTrailingDollar text_converted
    let budget_context := findBudgetContext text_lower
    match rangeBranch text_converted text_lower with
    | some p => (some p.1, some p.2)
    | none => amountsFallback text_converted text_lower (dollar_amounts ++ budget_context)


/-! ### Time-urgency extraction

Embedding of `PreferenceExtractorTool._extract_urgency`. -/

/-- The `(am|pm|:\d{2})` tail of the specific-time pattern, after
`\s*`. -/
def specTimeTail (s : List Char) : Bool :=
  let r := skipSpaces s
  matchLit "am".data r || matchLit "pm".data r ||
    (match r with
     | ':' :: d1 :: d2 :: _ => isDigitChar d1 && isDigitChar d2
     | _ => false)

/-- Attempt of `\d{1,2}\s*(am|pm|:\d{2})` at one position; the greedy
two-digit try is attempted before the one-digit fallback. -/
def trySpecTimeAt : List Char → Bool
  | [] => false
  | c1 :: r1 =>
    if isDigitChar c1 then
      match r1 with
      | c2 :: r2 =>
        if isDigitChar c2 then specTimeTail r2 || specTimeTail r1
        else specTimeTail r1
      | [] => false
    else false

/-- `re.search(r'\d{1,2}\s*(am|pm|:\d{2})', text_lower)` as a Boolean. -/
def searchSpecTime : List Char → Bool
  | [] => false
  | c :: cs => trySpecTimeAt (c :: cs) || searchSpecTime cs

/-- `PreferenceExtractorTool._extract_urgency`. -/
def extract_urgency (text : List Char) : Option String :=
  let text_lower := lowerStr text
  let has_specific_time := searchSpecTime text_lower
  let has_time_constraint :=
    ["before", "after", "by"].any (fun w => hasSub w.data text_lower)
  if ["asap", "urgent", "now", "immediately", "emergency"].any
      (fun w => hasSub w.data text_lower) then some "ASAP"
  else if ["today", "this afternoon", "tonight", "this evening"].any
      (fun w => hasSub w.data text_lower) then
    (if has_specific_time then none else some "today")
  else if ["tomorrow", "tmr"].any (fun w => hasSub w.data text_lower) then
    (if has_specific_time || has_time_constraint then none else some "week")
  else if ["monday", "tuesday", "wednesday", "thursday", "friday", "saturday",
      "sunday"].any (fun w => hasSub w.data text_lower) then
    (if has_specific_time || has_time_constraint then none else some "week")
  else if ["this week", "next week", "next few days", "soon", "weekend"].any
      (fun w => hasSub w.data text_lower) then
    (if has_specific_time || has_time_constraint then none else some "week")
  else if ["flexible", "whenever", "anytime", "no rush", "any time"].any
      (fun w => hasSub w.data text_lower) then some "flexible"
  else none

/-! ### Date, time and constraint extraction

Embedding of `PreferenceExtractorTool._extract_datetime_details`.
`datetime.now()` becomes an explicit `NowInfo`: an absolute day index
(day 0 a Monday, so `weekday() = days % 7`) and the hour of day.
Extracted dates are absolute day indices (the source formats them as ISO
strings); extracted times are `(hour, minute)` pairs (the source formats
them as `"HH:MM"`). -/

structure NowInfo where
  days : ℕ
  hour : ℕ
  deriving DecidableEq, Repr

structure DateTimeDetails where
  preferred_date : Option ℤ
  preferred_time : Option (ℕ × ℕ)
  time_constraint : Option String
  deriving DecidableEq, Repr

/-- Lookahead `(?=\s*(am|pm))` of the compound spoken-time pattern. -/
def lookaheadAmPm (s : List Char) : Bool :=
  let r := skipSpaces s
  matchLit "am".data r || matchLit "pm".data r

/-- Lookahead `(?=\s*(am|pm|o'clock|oclock))` of the simple spoken-time
pattern. -/
def lookaheadTimeWords (s : List Char) : Bool :=
  let r := skipSpaces s
  matchLit "am".data r || matchLit "pm".data r ||
    matchLit ("o" ++ apoS ++ "clock").data r || matchLit "oclock".data r

/-- Attempt of the compound pattern
`\b hour \s+ minute \b(?=\s*(am|pm))` at one position (the left boundary
is checked by the caller); returns the rest after the minute word, the
lookahead not being consumed. -/
def tryCompoundAt (hw mn : List Char) (s : List Char) : Option (List Char) :=
  if matchLit hw s then
    match s.drop hw.length with
    | sp :: tl =>
      if isSpaceChar sp then
        if matchLit mn (skipSpaces tl) then
          if boundaryAfter ((skipSpaces tl).drop mn.length) &&
              lookaheadAmPm ((skipSpaces tl).drop mn.length) then
            some ((skipSpaces tl).drop mn.length)
          else none
        else none
      else none
    | [] => none
  else none

/-- One `re.sub` pass of the compound spoken-time pattern
(`"five thirty pm"` to `"5:30 pm"`); structurally recursive on fuel as
for the other scanners. -/
def subCompoundGoF (hw mn r : List Char) : ℕ → Option Char → List Char → List Char
  | 0, _, s => s
  | _ + 1, _, [] => []
  | fuel + 1, prev, c :: cs =>
    if boundaryBefore prev then
      match tryCompoundAt hw mn (c :: cs) with
      | some rest => r ++ subCompoundGoF hw mn r fuel (some (mn.getLastD c)) rest
      | none => c :: subCompoundGoF hw mn r fuel (some c) cs
    else c :: subCompoundGoF hw mn r fuel (some c) cs

def subCompound (hw mn r s : List Char) : List Char :=
  subCompoundGoF hw mn r s.length none s

/-- One `re.sub` pass of `\b word \b(?=\s*(am|pm|o'clock|oclock))`
(`"three pm"` to `"3 pm"`); structurally recursive on fuel. -/
def subLookaheadGoF (w rep : List Char) : ℕ → Option Char → List Char → List Char
  | 0, _, s => s
  | _ + 1, _, [] => []
  | fuel + 1, prev, c :: cs =>
    if boundaryBefore prev && matchLit w (c :: cs) &&
        boundaryAfter ((c :: cs).drop w.length) &&
        lookaheadTimeWords ((c :: cs).drop w.length) then
      rep ++ subLookaheadGoF w rep fuel (some (w.getLastD c)) ((c :: cs).drop w.length)
    else
      c :: subLookaheadGoF w rep fuel (some c) cs

def subLookahead (w rep s : List Char) : List Char :=
  subLookaheadGoF w rep s.length none s

/-- The `o'clock|oclock` tail (after `\s*`) of the o'clock pattern;
returns the rest after the matched literal. -/
def oclockTail (s : List Char) : Option (List Char) :=
  if matchLit ("o" ++ apoS ++ "clock").data (skipSpaces s) then
    some ((skipSpaces s).drop 7)
  else if matchLit "oclock".data (skipSpaces s) then
    some ((skipSpaces s).drop 6)
  else none

/-- Package the one-digit fallback result of the o'clock attempt. -/
def oclockWrap (ds : List Char) (o : Option (List Char)) :
    Option (List Char × List Char) :=
  match o with
  | some rest => some (ds, rest)
  | none => none

/-- Attempt of the o'clock pattern `(\d{1,2})\s*(?:o'clock|oclock)` at
one position: the matched digits and the rest after the match. -/
def tryOclockAt : List Char → Option (List Char × List Char)
  | [] => none
  | c1 :: r1 =>
    if isDigitChar c1 then
      match r1 with
      | c2 :: r2 =>
        if isDigitChar c2 then
          match oclockTail r2 with
          | some rest => some ([c1, c2], rest)
          | none => oclockWrap [c1] (oclockTail r1)
        else oclockWrap [c1] (oclockTail r1)
      | [] => none
    else none

/-- `re.sub(r"(\d{1,2})\s*(?:o'clock|oclock)", r"\1:00", s)`. -/
def subOclockF : ℕ → List Char → List Char
  | 0, s => s
  | _ + 1, [] => []
  | fuel + 1, c :: cs =>
    match tryOclockAt (c :: cs) with
    | some (ds, rest) => ds ++ ':' :: '0' :: '0' :: subOclockF fuel rest
    | none => c :: subOclockF fuel cs

def subOclock (s : List Char) : List Char := subOclockF s.length s

/-- The three spoken-time conversion passes of
`_extract_datetime_details`: the nested compound-pattern loop over
`time_word_to_num × minute_words`, the simple-pattern loop over
`time_word_to_num`, and the o'clock normalisation. -/
def convert_time_words (text_lower : List Char) : List Char :=
  let s1 := time_word_to_num.foldl (fun acc hw =>
    minute_words.foldl (fun acc2 mw =>
      subCompound hw.1.data mw.1.data (hw.2.data ++ ':' :: mw.2.data) acc2) acc) text_lower
  let s2 := time_word_to_num.foldl (fun acc p => subLookahead p.1.data p.2.data acc) s1
  subOclock s2

/-- Tail of time pattern 1, `:(\d{2})\s*(am|pm)` after the hour digits;
returns `(hour, minute, isPM)`. -/
def time1Tail (hds : List Char) (s : List Char) : Option (ℕ × ℕ × Bool) :=
  match s with
  | ':' :: d1 :: d2 :: rest =>
    if isDigitChar d1 && isDigitChar d2 then
      let r := skipSpaces rest
      if matchLit "am".data r then some (digitsToNat hds, digitsToNat [d1, d2], false)
      else if matchLit "pm".data r then some (digitsToNat hds, digitsToNat [d1, d2], true)
      else none
    else none
  | _ => none

/-- Attempt of `(\d{1,2}):(\d{2})\s*(am|pm)` at one position,
two-digit hour tried before the one-digit fallback. -/
def tryTime1At : List Char → Option (ℕ × ℕ × Bool)
  | [] => none
  | c1 :: r1 =>
    if isDigitChar c1 then
      match r1 with
      | c2 :: r2 =>
        if isDigitChar c2 then
          match time1Tail [c1, c2] r2 with
          | some v => some v
          | none => time1Tail [c1] r1
        else time1Tail [c1] r1
      | [] => none
    else none

def searchTime1 : List Char → Option (ℕ × ℕ × Bool)
  | [] => none
  | c :: cs =>
    match tryTime1At (c :: cs) with
    | some v => some v
    | none => searchTime1 cs

/-- Tail of time pattern 2, `\s*(am|pm)` after the hour digits. -/
def time2Tail (hds : List Char) (s : List Char) : Option (ℕ × Bool) :=
  let r := skipSpaces s
  if matchLit "am".data r then some (digitsToNat hds, false)
  else if matchLit "pm".data r then some (digitsToNat hds, true)
  else none

/-- Attempt of `(\d{1,2})\s*(am|pm)` at one position. -/
def tryTime2At : List Char → Option (ℕ × Bool)
  | [] => none
  | c1 :: r1 =>
    if isDigitChar c1 then
      match r1 with
      | c2 :: r2 =>
        if isDigitChar c2 then
          match time2Tail [c1, c2] r2 with
          | some v => some v
          | none => time2Tail [c1] r1
        else time2Tail [c1] r1
      | [] => time2Tail [c1] r1
    else none

def searchTime2 : List Char → Option (ℕ × Bool)
  | [] => none
  | c :: cs =>
    match tryTime2At (c :: cs) with
    | some v => some v
    | none => searchTime2 cs

/-- Tail of time pattern 3, `:(\d{2})` after the hour digits. -/
def time3Tail (hds : List Char) (s : List Char) : Option (ℕ × ℕ) :=
  match s with
  | ':' :: d1 :: d2 :: _ =>
    if isDigitChar d1 && isDigitChar d2 then
      some (digitsToNat hds, digitsToNat [d1, d2])
    else none
  | _ => none

/-- Attempt of the bare 24-hour pattern `(\d{1,2}):(\d{2})`. -/
def tryTime3At : List Char → Option (ℕ × ℕ)
  | [] => none
  | c1 :: r1 =>
    if isDigitChar c1 then
      match r1 with
      | c2 :: r2 =>
        if isDigitChar c2 then
          match time3Tail [c1, c2] r2 with
          | some v => some v
          | none => time3Tail [c1] r1
        else time3Tail [c1] r1
      | [] => none
    else none

def searchTime3 : List Char → Option (ℕ × ℕ)
  | [] => none
  | c :: cs =>
    match tryTime3At (c :: cs) with
    | some v => some v
    | none => searchTime3 cs

/-- The am/pm hour adjustment of the time-pattern loop. -/
def adjust12 (hour : ℕ) (isPM : Bool) : ℕ :=
  if isPM && decide (hour ≠ 12) then hour + 12
  else if !isPM && hour = 12 then 0
  else hour

/-- The time-pattern loop of `_extract_datetime_details`: patterns tried
in order; a first match of the bare 24-hour pattern with an invalid hour
or minute falls through to no time at all. -/
def extract_time (text_with_time_numbers : List Char) : Option (ℕ × ℕ) :=
  match searchTime1 text_with_time_numbers with
  | some (h, m, pm) => some (adjust12 h pm, m)
  | none =>
    match searchTime2 text_with_time_numbers with
    | some (h, pm) => some (adjust12 h pm, 0)
    | none =>
      match searchTime3 text_with_time_numbers with
      | some (h, m) => if h ≤ 23 && m ≤ 59 then some (h, m) else none
      | none => none

def days_of_week : List (String × ℕ) :=
  [("monday", 0), ("tuesday", 1), ("wednesday", 2), ("thursday", 3),
    ("friday", 4), ("saturday", 5), ("sunday", 6)]

/-- The date branches of `_extract_datetime_details`, on the lower-cased
original text.  Python's nonnegative `%` on `4 - current_weekday` and
`7 - current_weekday` is written with a `+ 7` offset. -/
def extract_date (text_lower : List Char) (now : NowInfo) : Option ℤ :=
  let current_weekday := now.days % 7
  if hasSub "today".data text_lower then some (now.days : ℤ)
  else if hasSub "tomorrow".data text_lower || hasSub "tmr".data text_lower then
    some ((now.days : ℤ) + 1)
  else if hasSub "weekend".data text_lower then
    let is_next := hasSub "next".data text_lower
    let days_until_saturday : ℕ :=
      if current_weekday ≤ 4 then
        (if is_next then 5 - current_weekday + 7 else 5 - current_weekday)
      else if current_weekday = 5 then (if is_next then 7 else 0)
      else (if is_next then 13 else 6)
    some ((now.days : ℤ) + days_until_saturday)
  else if hasSub "end of".data text_lower && hasSub "week".data text_lower then
    let days_until_friday := (4 + 7 - current_weekday) % 7
    let days_until_friday :=
      if days_until_friday = 0 && 17 ≤ now.hour then 7 else days_until_friday
    some ((now.days : ℤ) + days_until_friday)
  else if hasSub "next week".data text_lower &&
      ! (days_of_week.any (fun p => hasSub p.1.data text_lower)) then
    let days_until_next_monday := (7 - current_weekday) % 7
    let days_until_next_monday :=
      if days_until_next_monday = 0 then 7 else days_until_next_monday
    some ((now.days : ℤ) + days_until_next_monday)
  else
    match (days_of_week.find? (fun p => hasSub p.1.data text_lower)).map (fun p => p.2) with
    | none => none
    | some day_num =>
      let is_next_week := hasSub "next".data text_lower
      let days_ahead : ℤ := (day_num : ℤ) - (current_weekday : ℤ)
      let days_ahead :=
        if is_next_week then days_ahead + 7
        else if days_ahead < 0 then days_ahead + 7
        else if days_ahead = 0 then
          (if hasSub "before".data text_lower || hasSub "by".data text_lower
            then 0 else 7)
        else days_ahead
      some ((now.days : ℤ) + days_ahead)

/-- `PreferenceExtractorTool._extract_datetime_details`. -/
def extract_datetime_details (text : List Char) (now : NowInfo) : DateTimeDetails :=
  let text_lower := lowerStr text
  let time_constraint :=
    if hasSub "before".data text_lower then some "before"
    else if hasSub "after".data text_lower then some "after"
    else if hasSub "by".data text_lower then some "by"
    else none
  { preferred_date := extract_date text_lower now
    preferred_time := extract_time (convert_time_words text_lower)
    time_constraint := time_constraint }

/-! ### Provider-preference and location extraction -/

/-- `PreferenceExtractorTool._extract_artisan_preference`. -/
def extract_artisan_preference (text : List Char) : Option String :=
  let text_lower := lowerStr text
  let gender :=
    (if hasSub "female".data text_lower || hasSub "woman".data text_lower
      then ["female"] else []) ++
    (if hasSub "male".data text_lower ||
        (hasSub "man".data text_lower && ! hasSub "female".data text_lower)
      then ["male"] else [])
  let preferences := gender ++
    (if ["experienced", "senior", "expert", "professional"].any
        (fun w => hasSub w.data text_lower) then ["experienced"] else [])
  if ["open", "anyone", "no preference", "any"].any
      (fun w => hasSub w.data text_lower) then some "open to anyone"
  else if preferences ≠ [] then some (String.intercalate " " preferences)
  else none

/-- The place-keyword table of `_extract_location`
(`{**place_keywords_ma, **place_keywords_ny}`), already in the order
`sorted(keys, key=len, reverse=True)` (a stable sort, ties keep dict
order), each mapped to its `f"{place_name}, {city}"` result. -/
def place_list : List (String × String) := [
  ("downtown crossing", "Downtown Crossing, Boston, MA"),
  ("back bay station", "Back Bay station, Boston, MA"),
  ("kendall station", "Kendall/MIT station, Cambridge, MA"),
  ("harvard station", "Harvard station, Cambridge, MA"),
  ("columbus circle", "Columbus Circle, New York, NY"),
  ("brooklyn bridge", "Brooklyn Bridge, New York, NY"),
  ("kendall square", "Kendall Square, Cambridge, MA"),
  ("harvard square", "Harvard Square, Cambridge, MA"),
  ("central square", "Central Square, Cambridge, MA"),
  ("porter station", "Porter station, Cambridge, MA"),
  ("copley station", "Copley station, Boston, MA"),
  ("newbury street", "Newbury Street, Boston, MA"),
  ("porter square", "Porter Square, Cambridge, MA"),
  ("south station", "South Station, Boston, MA"),
  ("north station", "North Station, Boston, MA"),
  ("copley square", "Copley Square, Boston, MA"),
  ("grand central", "Grand Central, New York, NY"),
  ("davis square", "Davis Square, Somerville, MA"),
  ("times square", "Times Square, New York, NY"),
  ("penn station", "Penn Station, New York, NY"),
  ("union square", "Union Square, New York, NY"),
  ("central park", "Central Park, New York, NY"),
  ("mit station", "MIT station, Cambridge, MA"),
  ("park street", "Park Street station, Boston, MA"),
  ("fenway park", "Fenway Park, Boston, MA"),
  ("rockefeller", "Rockefeller Center, New York, NY"),
  ("world trade", "World Trade Center, New York, NY"),
  ("mit subway", "MIT station, Cambridge, MA"),
  ("prudential", "Prudential Center, Boston, MA")]

def boston_keywords : List String :=
  ["boston", "back bay", "south end", "north end", "beacon hill",
    "downtown boston", "fenway", "allston", "brighton", "jamaica plain",
    "roxbury", "dorchester", "southie", "south boston", "charlestown",
    "brookline", "newton", "somerville"]

def cambridge_ma_keywords : List String :=
  ["harvard square", "central square", "kendall square",
    "porter square", "davis square", "inman square", "mit",
    "cambridge ma", "cambridge, ma", "cambridge massachusetts"]

def nyc_keywords : List String :=
  ["new york", "nyc", "manhattan", "brooklyn", "queens", "bronx",
    "staten island", "harlem", "soho", "tribeca", "chelsea",
    "greenwich village", "east village", "west village", "midtown",
    "upper east side", "upper west side", "lower east side",
    "williamsburg", "bushwick", "astoria", "flushing", "dumbo",
    "times square", "wall street", "flatiron", "noho", "nolita"]

/-- `PreferenceExtractorTool._extract_location`. -/
def extract_location (text : List Char) : Option String :=
  let text_lower := lowerStr text
  match (place_list.find? (fun p => hasSub p.1.data text_lower)).map (fun p => p.2) with
  | some place => some place
  | none =>
    let found_boston := boston_keywords.any (fun w => hasSub w.data text_lower)
    let found_cambridge := hasSub "cambridge".data text_lower
    let found_cambridge_ma := cambridge_ma_keywords.any (fun w => hasSub w.data text_lower)
    let found_nyc := nyc_keywords.any (fun w => hasSub w.data text_lower)
    let found_ma_context := ["ma", "massachusetts", "mass"].any (fun w => hasSub w.data text_lower)
    let found_ny_context := ["ny", "new york"].any (fun w => hasSub w.data text_lower)
    let found_uk_context := ["uk", "england", "british"].any (fun w => hasSub w.data text_lower)
    let locations : List String :=
      (if found_boston || found_cambridge_ma || (found_cambridge && found_ma_context) then
        (if found_boston then ["Boston, MA"] else []) ++
        (if found_cambridge_ma || (found_cambridge && (found_ma_context || found_boston))
          then ["Cambridge, MA"] else [])
      else []) ++
      (if found_nyc then ["New York, NY"] else [])
    match locations with
    | a :: b :: rest => some (String.intercalate "/" (a :: b :: rest))
    | [a] => some a
    | [] =>
      if found_cambridge && !found_cambridge_ma && !found_ma_context && !found_boston then
        (if found_uk_context then some "AMBIGUOUS:cambridge_uk"
          else some "AMBIGUOUS:cambridge")
      else if found_ma_context && !found_nyc then some "Boston, MA"
      else if found_ny_context && !found_boston && !found_cambridge then
        some "New York, NY"
      else if ["either", "both", "anywhere", "any area",
          "doesn" ++ apoS ++ "t matter"].any (fun w => hasSub w.data text_lower) then
        some "Boston, MA/Cambridge, MA"
      else none

/-! ### Intent parser

Embedding of `IntentParserTool.execute`. -/

structure IntentCategory where
  name : String
  exactKws : List String
  fuzzyKws : List String
  confidence : ℚ

/-- The service category table, in dict order.  `fuzzyKws` embeds the
source's "partial" keyword lists. -/
def intent_categories : List IntentCategory := [
  ⟨"haircut", ["haircut", "hair cut"], ["cut", "trim", "barber", "stylist", "hair style"], 95/100⟩,
  ⟨"nails", ["nails", "manicure", "pedicure"], ["nail art", "gel nails", "mani", "pedi"], 95/100⟩,
  ⟨"massage", ["massage"], ["deep tissue", "swedish", "hot stone", "body work", "rub"], 90/100⟩,
  ⟨"spa", ["spa", "spa day"], ["spa treatment", "relaxation", "pamper"], 85/100⟩,
  ⟨"facial", ["facial", "face treatment"], ["skincare", "skin care", "face care"], 90/100⟩,
  ⟨"waxing", ["waxing", "wax"], ["hair removal", "brazilian", "bikini wax"], 90/100⟩,
  ⟨"makeup", ["makeup", "make up"], ["cosmetics", "beauty makeup", "glam"], 90/100⟩,
  ⟨"cleaning", ["cleaning", "house cleaning"], ["clean", "maid", "housekeeping"], 85/100⟩]

namespace IntentParserTool

/-- The category loop: an exact keyword returns immediately; a fuzzy
keyword records a best match at 0.8 of the category confidence when the
raw confidence beats the recorded one. -/
def go (message : List Char) : List IntentCategory → Option String × ℚ → Option String × ℚ
  | [], best => best
  | cat :: rest, best =>
    if cat.exactKws.any (fun k => hasSub k.data message) then
      (some cat.name, cat.confidence)
    else if cat.fuzzyKws.any (fun k => hasSub k.data message) &&
        decide (best.2 < cat.confidence) then
      go message rest (some cat.name, cat.confidence * (8/10))
    else go message rest best

/-- `IntentParserTool.execute` on the lower-cased message. -/
def execute (message : String) : Option String × ℚ :=
  if message.data = [] then (none, 0)
  else
    match go (lowerStr message.data) intent_categories (none, 0) with
    | (some c, conf) => (some c, conf)
    | (none, _) => (none, 0)

end IntentParserTool


/-! ### Preference record, merge, readiness and question selection

Embedding of `PreferenceExtractorTool.execute` (the merge),
`ReadinessDetectorTool.execute`, `ClarifyingQuestionGeneratorTool.execute`
and the deterministic skeleton of `ConversationAgent.execute`
(`services/agents/conversation_agent.py`).  Python truthiness on the
stored values: a string field is truthy when non-empty, a number when
non-zero; dates and times are modelled values whose source strings are
always non-empty, so their truthiness is `isSome`. -/

def truthyQ : Option ℚ → Bool
  | some v => decide (v ≠ 0)
  | none => false

def truthyS : Option String → Bool
  | some s => decide (s ≠ "")
  | none => false

/-- The per-session preference record held by the conversation agent. -/
structure Preferences where
  service_type : Option String
  budget_min : Option ℚ
  budget_max : Option ℚ
  time_urgency : Option String
  artisan_preference : Option String
  special_notes : Option String
  preferred_date : Option ℤ
  preferred_time : Option (ℕ × ℕ)
  time_constraint : Option String
  location : Option String
  deriving DecidableEq, Repr

/-- The result dict of `PreferenceExtractorTool.execute` (it carries no
`service_type` key). -/
structure ExtractedPrefs where
  budget_min : Option ℚ
  budget_max : Option ℚ
  time_urgency : Option String
  artisan_preference : Option String
  special_notes : Option String
  preferred_date : Option ℤ
  preferred_time : Option (ℕ × ℕ)
  time_constraint : Option String
  location : Option String
  deriving DecidableEq, Repr

def emptyPreferences : Preferences :=
  { service_type := none, budget_min := none, budget_max := none,
    time_urgency := none, artisan_preference := none, special_notes := none,
    preferred_date := none, preferred_time := none, time_constraint := none,
    location := none }

namespace PreferenceExtractorTool

/-- `PreferenceExtractorTool.execute`: run each sub-extraction on the
message and overwrite a field of the current preferences only when the
extraction produced a value.  The budget fields use explicit `None`
checks (so an extracted `0` overwrites); the other sub-extractors never
produce empty strings, so their truthiness tests are `Option` matches. -/
def execute (now : NowInfo) (message : String) (current : Preferences) :
    ExtractedPrefs :=
  let budget := extract_budget message.data
  let urgency := extract_urgency message.data
  let datetime_details := extract_datetime_details message.data now
  let artisan_pref := extract_artisan_preference message.data
  let location := extract_location message.data
  { budget_min :=
      match budget.1 with
      | some v => some v
      | none => current.budget_min
    budget_max :=
      match budget.2 with
      | some v => some v
      | none => current.budget_max
    time_urgency :=
      match urgency with
      | some v => some v
      | none => current.time_urgency
    artisan_preference :=
      match artisan_pref with
      | some v => some v
      | none => current.artisan_preference
    special_notes := current.special_notes
    preferred_date :=
      match datetime_details.preferred_date with
      | some v => some v
      | none => current.preferred_date
    preferred_time :=
      match datetime_details.preferred_time with
      | some v => some v
      | none => current.preferred_time
    time_constraint :=
      match datetime_details.time_constraint with
      | some v => some v
      | none => current.time_constraint
    location :=
      match location with
      | some v => some v
      | none => current.location }

end PreferenceExtractorTool

namespace ReadinessDetectorTool

/-- `ReadinessDetectorTool.execute`: `(ready_to_match, missing_fields)`.
The budget requirement is `prefs.get("budget_min") or
prefs.get("budget_max")` — Python truthiness, so a bound equal to `0`
does not count. -/
def execute (prefs : Preferences) : Bool × List String :=
  let has_time_info := truthyS prefs.time_urgency || prefs.preferred_date.isSome ||
    prefs.preferred_time.isSome || truthyS prefs.time_constraint
  let missing_fields :=
    (if truthyS prefs.service_type then [] else ["service_type"]) ++
    (if truthyQ prefs.budget_min || truthyQ prefs.budget_max then [] else ["budget"]) ++
    (if has_time_info then [] else ["time_info"]) ++
    (if truthyS prefs.location then [] else ["location"])
  (missing_fields = [], missing_fields)

end ReadinessDetectorTool

namespace ClarifyingQuestionGeneratorTool

def genericLocationQuestion : String :=
  "Where would you like to get this done? We" ++ apoS ++
    "re currently serving Boston, Cambridge (MA), and New York City."

def cambridgeDisambiguationQuestion : String :=
  "Did you mean Cambridge, Massachusetts (near Boston) or somewhere else? We" ++
    apoS ++ "re currently serving the Boston/Cambridge area and NYC."

/-- `ClarifyingQuestionGeneratorTool.execute`: the fixed question
template of the first missing field, `(question, field)`. -/
def execute (missing_fields : List String) : String × Option String :=
  match missing_fields with
  | [] => ("Perfect! Let me find the best matches for you!", none)
  | field :: _ =>
    let question :=
      if field = "service_type" then "What service are you looking for?"
      else if field = "budget" then
        "What" ++ apoS ++ "s your budget for this service?"
      else if field = "time_info" then "When do you need this?"
      else if field = "location" then genericLocationQuestion
      else if field = "location_ambiguous_cambridge" then
        cambridgeDisambiguationQuestion
      else if field = "artisan_preference" then
        "Any preferences for the provider?"
      else "Can you tell me more about what you" ++ apoS ++ "re looking for?"
    (question, some field)

end ClarifyingQuestionGeneratorTool

/-- Result of one conversation turn of the agent. -/
structure TurnResult where
  ready_to_match : Bool
  merged : Preferences
  question : Option String
  question_field : Option String
  deriving DecidableEq, Repr

namespace ConversationAgent

def startsWithAmbiguous (s : String) : Bool := matchLit "AMBIGUOUS:".data s.data

/-- Step 1 of `ConversationAgent.execute`: the parsed intent, when
present, overwrites `service_type` before extraction. -/
def applyIntent (message : String) (current : Preferences) : Preferences :=
  match (IntentParserTool.execute message).1 with
  | some st => { current with service_type := some st }
  | none => current

/-- The merge loop of `ConversationAgent.execute`: each extracted field
overwrites the current one only when non-`None`. -/
def mergeExtracted (current1 : Preferences) (pres : ExtractedPrefs) : Preferences :=
  { service_type := current1.service_type
    budget_min :=
      match pres.budget_min with
      | some v => some v
      | none => current1.budget_min
    budget_max :=
      match pres.budget_max with
      | some v => some v
      | none => current1.budget_max
    time_urgency :=
      match pres.time_urgency with
      | some v => some v
      | none => current1.time_urgency
    artisan_preference :=
      match pres.artisan_preference with
      | some v => some v
      | none => current1.artisan_preference
    special_notes :=
      match pres.special_notes with
      | some v => some v
      | none => current1.special_notes
    preferred_date :=
      match pres.preferred_date with
      | some v => some v
      | none => current1.preferred_date
    preferred_time :=
      match pres.preferred_time with
      | some v => some v
      | none => current1.preferred_time
    time_constraint :=
      match pres.time_constraint with
      | some v => some v
      | none => current1.time_constraint
    location :=
      match pres.location with
      | some v => some v
      | none => current1.location }

/-- Whether the merged location carries the `AMBIGUOUS:` marker. -/
def locationAmbiguous (now : NowInfo) (message : String) (current : Preferences) :
    Bool :=
  let current1 := applyIntent message current
  startsWithAmbiguous
    ((mergeExtracted current1
        (PreferenceExtractorTool.execute now message current1)).location.getD "")

/-- The preference record after intent, extraction, merge,
ambiguous-location clearing and location restoration. -/
def mergedPrefs (now : NowInfo) (message : String) (current : Preferences) :
    Preferences :=
  let current1 := applyIntent message current
  let extracted :=
    mergeExtracted current1 (PreferenceExtractorTool.execute now message current1)
  let location_ambiguous := startsWithAmbiguous (extracted.location.getD "")
  let extracted2 :=
    if location_ambiguous then { extracted with location := none } else extracted
  if truthyS current1.location && ! truthyS extracted2.location &&
      ! location_ambiguous then
    { extracted2 with location := current1.location }
  else extracted2

/-- The deterministic core of `ConversationAgent.execute` for one turn
with no previous assistant message and no user calendar: the
time-suggestion-acceptance preamble extracts nothing from an empty
previous message and so never changes the record, the LLM location
supplement of step 2.5 is modelled as unavailable (its exception path
keeps the rule-based result), and the ready branch's provider search is
outside this core (its `question` is `none`).  Steps: intent parsing,
preference extraction and merge, ambiguous-location handling, location
restoration (all factored into `mergedPrefs`), readiness, and
clarifying-question selection with the distinguished
`location_ambiguous_cambridge` field put first. -/
def step (now : NowInfo) (message : String) (current : Preferences) : TurnResult :=
  let extracted3 := mergedPrefs now message current
  let readiness := ReadinessDetectorTool.execute extracted3
  if readiness.1 then
    { ready_to_match := true, merged := extracted3,
      question := none, question_field := none }
  else
    let missing_fields_adjusted :=
      if locationAmbiguous now message current then
        "location_ambiguous_cambridge" :: readiness.2.filter (fun f => f ≠ "location")
      else readiness.2
    let q := ClarifyingQuestionGeneratorTool.execute missing_fields_adjusted
    { ready_to_match := false, merged := extracted3,
      question := some q.1, question_field := q.2 }

end ConversationAgent


/-! ### Supporting lemmas -/

theorem filter_orderedInsert_pos (r : α → α → Prop) [DecidableRel r]
    (p : α → Bool) (x : α) (l : List α) (hx : p x = true)
    (h : ∀ y, p y = true → r x y) :
    (List.orderedInsert r x l).filter p = x :: l.filter p := by
  induction l with
  | nil => simp [List.orderedInsert, hx]
  | cons y t ih =>
    by_cases hr : r x y
    · simp [List.orderedInsert, hr, hx]
    · have hy : p y = false := by
        cases hpy : p y with
        | false => rfl
        | true => exact absurd (h y hpy) hr
      simp [List.orderedInsert, hr, hy, ih]

theorem filter_orderedInsert_neg (r : α → α → Prop) [DecidableRel r]
    (p : α → Bool) (x : α) (l : List α) (hx : p x = false) :
    (List.orderedInsert r x l).filter p = l.filter p := by
  induction l with
  | nil => simp [List.orderedInsert, hx]
  | cons y t ih =>
    by_cases hr : r x y
    · simp [List.orderedInsert, hr, hx]
    · cases hy : p y with
      | false => simp [List.orderedInsert, hr, hy, ih]
      | true => simp [List.orderedInsert, hr, hy, ih]

theorem filter_insertionSort (r : α → α → Prop) [DecidableRel r]
    (key : α → ℚ) (hr : ∀ a b, key a = key b → r a b) (k : ℚ) (l : List α) :
    (List.insertionSort r l).filter (fun a => decide (key a = k)) =
      l.filter (fun a => decide (key a = k)) := by
  induction l with
  | nil => rfl
  | cons x t ih =>
    show (List.orderedInsert r x (List.insertionSort r t)).filter _ = _
    by_cases hx : key x = k
    · rw [filter_orderedInsert_pos r _ x _ (by simp [hx])
        (fun y hy => hr x y (by simp at hy; rw [hx, hy]))]
      · simp [hx, ih]
    · rw [filter_orderedInsert_neg r _ x _ (by simp [hx])]
      simp [hx, ih]



/-! Character facts. -/

theorem toLowerChar_digit (c : Char) (h : isDigitChar c = true) :
    toLowerChar c = c := by
  unfold isDigitChar at h
  unfold toLowerChar
  simp only [Bool.and_eq_true, decide_eq_true_eq] at h
  have hb : (65 ≤ c.toNat && c.toNat ≤ 90) = false := by
    simp only [Bool.and_eq_false_iff, decide_eq_false_iff_not]
    omega
  simp [hb]

theorem not_space_of_digit (c : Char) (h : isDigitChar c = true) :
    isSpaceChar c = false := by
  unfold isSpaceChar
  simp only [Bool.or_eq_false_iff, decide_eq_false_iff_not]
  refine ⟨⟨⟨?_, ?_⟩, ?_⟩, ?_⟩ <;>
    (rintro rfl; exact absurd h (by decide))

/-! Occurrence lemmas: a digit-free word cannot occur across or inside
an all-digit suffix, so appending digits never creates matches. -/

theorem matchCI_append_digits : ∀ (w : List Char),
    (∀ c ∈ w, isDigitChar c = false) →
    ∀ (t : List Char), (∀ c ∈ t, isDigitChar c = true) →
    ∀ (s : List Char), matchCI w (s ++ t) = matchCI w s
  | [], _, _, _, _ => by simp [matchCI]
  | p :: ps, hw, t, ht, s => by
    cases s with
    | nil =>
      simp only [List.nil_append]
      cases t with
      | nil => rfl
      | cons c cs =>
        have hc := ht c (by simp)
        have hp := hw p (by simp)
        have hd : decide (toLowerChar c = p) = false := by
          rw [toLowerChar_digit c hc]
          simp only [decide_eq_false_iff_not]
          intro heq
          rw [heq] at hc
          rw [hp] at hc
          exact Bool.noConfusion hc
        show (decide (toLowerChar c = p) && matchCI ps cs) = matchCI (p :: ps) []
        rw [hd]
        rfl
    | cons c cs =>
      simp only [List.cons_append]
      show (decide (toLowerChar c = p) && matchCI ps (cs ++ t)) =
        (decide (toLowerChar c = p) && matchCI ps cs)
      rw [matchCI_append_digits ps (fun x hx => hw x (by simp [hx])) t ht cs]

theorem matchLit_append_digits : ∀ (w : List Char),
    (∀ c ∈ w, isDigitChar c = false) →
    ∀ (t : List Char), (∀ c ∈ t, isDigitChar c = true) →
    ∀ (s : List Char), matchLit w (s ++ t) = matchLit w s
  | [], _, _, _, _ => by simp [matchLit]
  | p :: ps, hw, t, ht, s => by
    cases s with
    | nil =>
      simp only [List.nil_append]
      cases t with
      | nil => rfl
      | cons c cs =>
        have hc := ht c (by simp)
        have hp := hw p (by simp)
        have hd : decide (c = p) = false := by
          simp only [decide_eq_false_iff_not]
          intro heq
          rw [heq] at hc
          rw [hp] at hc
          exact Bool.noConfusion hc
        show (decide (c = p) && matchLit ps cs) = matchLit (p :: ps) []
        rw [hd]
        rfl
    | cons c cs =>
      simp only [List.cons_append]
      show (decide (c = p) && matchLit ps (cs ++ t)) =
        (decide (c = p) && matchLit ps cs)
      rw [matchLit_append_digits ps (fun x hx => hw x (by simp [hx])) t ht cs]

theorem hasInfixCI_all_digits (w : List Char)
    (hw : ∀ c ∈ w, isDigitChar c = false) :
    ∀ (t : List Char), (∀ c ∈ t, isDigitChar c = true) →
    hasInfixCI w t = matchCI w [] := by
  intro t
  induction t with
  | nil => intro _; rfl
  | cons c cs ih =>
    intro ht
    show (matchCI w (c :: cs) || hasInfixCI w cs) = matchCI w []
    have h1 : matchCI w (c :: cs) = matchCI w [] := by
      have := matchCI_append_digits w hw (c :: cs) ht []
      simpa using this
    rw [h1, ih (fun x hx => ht x (by simp [hx]))]
    exact Bool.or_self _

theorem hasSub_all_digits (w : List Char)
    (hw : ∀ c ∈ w, isDigitChar c = false) :
    ∀ (t : List Char), (∀ c ∈ t, isDigitChar c = true) →
    hasSub w t = matchLit w [] := by
  intro t
  induction t with
  | nil => intro _; rfl
  | cons c cs ih =>
    intro ht
    show (matchLit w (c :: cs) || hasSub w cs) = matchLit w []
    have h1 : matchLit w (c :: cs) = matchLit w [] := by
      have := matchLit_append_digits w hw (c :: cs) ht []
      simpa using this
    rw [h1, ih (fun x hx => ht x (by simp [hx]))]
    exact Bool.or_self _

theorem hasInfixCI_append_digits (w : List Char)
    (hw : ∀ c ∈ w, isDigitChar c = false)
    (t : List Char) (ht : ∀ c ∈ t, isDigitChar c = true) :
    ∀ (s : List Char), hasInfixCI w (s ++ t) = hasInfixCI w s := by
  intro s
  induction s with
  | nil =>
    simp only [List.nil_append]
    show hasInfixCI w t = hasInfixCI w []
    rw [hasInfixCI_all_digits w hw t ht]
    rfl
  | cons c cs ih =>
    simp only [List.cons_append]
    show (matchCI w (c :: cs ++ t) || hasInfixCI w (cs ++ t)) =
      (matchCI w (c :: cs) || hasInfixCI w cs)
    rw [show c :: cs ++ t = (c :: cs) ++ t from rfl,
      matchCI_append_digits w hw t ht (c :: cs), ih]

theorem hasSub_append_digits (w : List Char)
    (hw : ∀ c ∈ w, isDigitChar c = false)
    (t : List Char) (ht : ∀ c ∈ t, isDigitChar c = true) :
    ∀ (s : List Char), hasSub w (s ++ t) = hasSub w s := by
  intro s
  induction s with
  | nil =>
    simp only [List.nil_append]
    show hasSub w t = hasSub w []
    rw [hasSub_all_digits w hw t ht]
    rfl
  | cons c cs ih =>
    simp only [List.cons_append]
    show (matchLit w (c :: cs ++ t) || hasSub w (cs ++ t)) =
      (matchLit w (c :: cs) || hasSub w cs)
    rw [show c :: cs ++ t = (c :: cs) ++ t from rfl,
      matchLit_append_digits w hw t ht (c :: cs), ih]

/-! The word-substitution passes leave a string without occurrences
unchanged. -/

theorem subWordGoF_eq_self (w r : List Char) :
    ∀ (fuel : ℕ) (prev : Option Char) (s : List Char),
    hasInfixCI w s = false → subWordGoF w r fuel prev s = s
  | 0, _, s, _ => rfl
  | fuel + 1, prev, [], _ => rfl
  | fuel + 1, prev, c :: cs, h => by
    have h2 : matchCI w (c :: cs) = false ∧ hasInfixCI w cs = false := by
      have : (matchCI w (c :: cs) || hasInfixCI w cs) = false := h
      simpa [Bool.or_eq_false_iff] using this
    show (if boundaryBefore prev && matchCI w (c :: cs) &&
        boundaryAfter ((c :: cs).drop w.length) then _ else _) = _
    rw [h2.1]
    simp only [Bool.and_false, Bool.false_and, Bool.false_eq_true, if_false]
    rw [subWordGoF_eq_self w r fuel (some c) cs h2.2]

theorem subWord_eq_self (w r s : List Char) (h : hasInfixCI w s = false) :
    subWord w r s = s :=
  subWordGoF_eq_self w r s.length none s h

theorem foldl_subWord_eq_self (L : List (String × String)) :
    ∀ (s : List Char), (∀ p ∈ L, hasInfixCI p.1.data s = false) →
    L.foldl (fun acc p => subWord p.1.data p.2.data acc) s = s := by
  induction L with
  | nil => intro s _; rfl
  | cons q qs ih =>
    intro s h
    show qs.foldl _ (subWord q.1.data q.2.data s) = s
    rw [subWord_eq_self _ _ _ (h q (by simp))]
    exact ih s (fun p hp => h p (by simp [hp]))

theorem convert_word_numbers_eq_self (s : List Char)
    (h : ∀ p ∈ numbers_dicts, hasInfixCI p.1.data s = false) :
    convert_word_numbers s = s :=
  foldl_subWord_eq_self numbers_dicts s h

/-! Lower-casing and digit runs. -/

theorem lowerStr_append (s t : List Char) :
    lowerStr (s ++ t) = lowerStr s ++ lowerStr t := List.map_append _ s t

theorem lowerStr_digits (t : List Char) (ht : ∀ c ∈ t, isDigitChar c = true) :
    lowerStr t = t := by
  induction t with
  | nil => rfl
  | cons c cs ih =>
    show toLowerChar c :: lowerStr cs = c :: cs
    rw [toLowerChar_digit c (ht c (by simp)), ih (fun x hx => ht x (by simp [hx]))]

theorem takeDigits_all (t : List Char) (ht : ∀ c ∈ t, isDigitChar c = true) :
    takeDigits t = (t, []) := by
  induction t with
  | nil => rfl
  | cons c cs ih =>
    show (if isDigitChar c = true then _ else _) = _
    rw [ht c (by simp)]
    simp only [if_true]
    rw [ih (fun x hx => ht x (by simp [hx]))]

theorem skipSpaces_all_digits (t : List Char)
    (ht : ∀ c ∈ t, isDigitChar c = true) : skipSpaces t = t := by
  cases t with
  | nil => rfl
  | cons c cs =>
    show (if isSpaceChar c = true then _ else _) = _
    rw [not_space_of_digit c (ht c (by simp))]
    simp

theorem parseAmount_all_digits (t : List Char) (hne : t ≠ [])
    (ht : ∀ c ∈ t, isDigitChar c = true) :
    parseAmount t = some ((digitsToNat t : ℚ), []) := by
  unfold parseAmount
  rw [takeDigits_all t ht]
  simp only [hne, if_false]
  rfl

theorem parseAmount_not_digit (c : Char) (cs : List Char)
    (hc : isDigitChar c = false) : parseAmount (c :: cs) = none := by
  unfold parseAmount
  show (if (takeDigits (c :: cs)).1 = [] then _ else _) = _
  have : takeDigits (c :: cs) = ([], c :: cs) := by
    show (if isDigitChar c = true then _ else _) = _
    rw [hc]
    simp
  rw [this]
  simp


/-! The amount scanners find nothing inside an all-digit tail. -/

theorem tryTrailingAt_all_digits (t : List Char) (hne : t ≠ [])
    (ht : ∀ c ∈ t, isDigitChar c = true) : tryTrailingAt t = none := by
  unfold tryTrailingAt
  rw [parseAmount_all_digits t hne ht]
  rfl

theorem findTrailingDollarF_all_digits :
    ∀ (fuel : ℕ) (t : List Char), (∀ c ∈ t, isDigitChar c = true) →
    findTrailingDollarF fuel t = []
  | 0, _, _ => rfl
  | fuel + 1, [], _ => rfl
  | fuel + 1, c :: cs, ht => by
    show (match tryTrailingAt (c :: cs) with
      | some (v, rest) => v :: findTrailingDollarF fuel rest
      | none => findTrailingDollarF fuel cs) = []
    rw [tryTrailingAt_all_digits (c :: cs) (by simp) ht]
    exact findTrailingDollarF_all_digits fuel cs (fun x hx => ht x (by simp [hx]))

theorem tryBudgetKwAt_all_digits (t : List Char) (hne : t ≠ [])
    (ht : ∀ c ∈ t, isDigitChar c = true) : tryBudgetKwAt t = none := by
  unfold tryBudgetKwAt
  rw [parseAmount_all_digits t hne ht]
  rfl

theorem findBudgetContextF_all_digits :
    ∀ (fuel : ℕ) (t : List Char), (∀ c ∈ t, isDigitChar c = true) →
    findBudgetContextF fuel t = []
  | 0, _, _ => rfl
  | fuel + 1, [], _ => rfl
  | fuel + 1, c :: cs, ht => by
    show (match tryBudgetKwAt (c :: cs) with
      | some (v, rest) => v :: findBudgetContextF fuel rest
      | none => findBudgetContextF fuel cs) = []
    rw [tryBudgetKwAt_all_digits (c :: cs) (by simp) ht]
    exact findBudgetContextF_all_digits fuel cs (fun x hx => ht x (by simp [hx]))

theorem tryRangeAt_all_digits (t : List Char) (hne : t ≠ [])
    (ht : ∀ c ∈ t, isDigitChar c = true) : tryRangeAt t = none := by
  unfold tryRangeAt
  rw [parseAmount_all_digits t hne ht]
  rfl

theorem searchRangeGo_all_digits :
    ∀ (t : List Char), (∀ c ∈ t, isDigitChar c = true) → ∀ (pos : ℕ),
    searchRangeGo pos t = none
  | [], _, _ => rfl
  | c :: cs, ht, pos => by
    show (match tryRangeAt (c :: cs) with
      | some (v1, v2, consumed) => some (v1, v2, pos, pos + consumed)
      | none => searchRangeGo (pos + 1) cs) = none
    rw [tryRangeAt_all_digits (c :: cs) (by simp) ht]
    exact searchRangeGo_all_digits cs (fun x hx => ht x (by simp [hx])) (pos + 1)

theorem findDollarAmountsF_nil (fuel : ℕ) : findDollarAmountsF fuel [] = [] := by
  cases fuel <;> rfl

/-! `re.search` of the "up to" pattern fails when none of its keyword
alternatives occurs. -/

theorem matchAlts_none_of (alts : List (List Char)) (s : List Char)
    (h : ∀ a ∈ alts, matchLit a s = false) : matchAlts alts s = none := by
  induction alts with
  | nil => rfl
  | cons a more ih =>
    show (if matchLit a s = true then _ else _) = _
    rw [h a (by simp)]
    simp only [Bool.false_eq_true, if_false]
    exact ih (fun x hx => h x (by simp [hx]))

theorem tryUpToAt_none (s : List Char)
    (h : ∀ a ∈ upToAlts, matchLit a.data s = false) : tryUpToAt s = none := by
  unfold tryUpToAt
  rw [matchAlts_none_of _ s (by
    intro a ha
    rw [List.mem_map] at ha
    obtain ⟨w, hw, rfl⟩ := ha
    exact h w hw)]

theorem searchUpTo_none : ∀ (s : List Char),
    (∀ a ∈ upToAlts, hasSub a.data s = false) → searchUpTo s = none
  | [], _ => rfl
  | c :: cs, h => by
    have hm : ∀ a ∈ upToAlts, matchLit a.data (c :: cs) = false := by
      intro a ha
      have := h a ha
      show _ = false
      rw [show hasSub a.data (c :: cs) =
        (matchLit a.data (c :: cs) || hasSub a.data cs) from rfl] at this
      exact (Bool.or_eq_false_iff.mp this).1
    show (match tryUpToAt (c :: cs) with
      | some v => some v
      | none => searchUpTo cs) = none
    rw [tryUpToAt_none (c :: cs) hm]
    refine searchUpTo_none cs ?_
    intro a ha
    have := h a ha
    rw [show hasSub a.data (c :: cs) =
      (matchLit a.data (c :: cs) || hasSub a.data cs) from rfl] at this
    exact (Bool.or_eq_false_iff.mp this).2

theorem any_hasSub_false (ws : List String) (s : List Char)
    (h : ∀ w ∈ ws, hasSub w.data s = false) :
    (ws.any (fun w => hasSub w.data s)) = false := by
  rw [List.any_eq_false]
  intro w hw
  simp [h w hw]


/-! Ground facts about the keyword tables, checked by computation. -/

theorem numbers_dicts_digit_free :
    (numbers_dicts.all (fun p => p.1.data.all (fun c => !isDigitChar c))) = true := by
  decide

theorem numbers_dicts_not_in_around :
    (numbers_dicts.all (fun p => !hasInfixCI p.1.data "around $".data)) = true := by
  decide

theorem numbers_dicts_not_in_dollar :
    (numbers_dicts.all (fun p => !hasInfixCI p.1.data "$".data)) = true := by
  decide

theorem upToAlts_clear_around :
    (upToAlts.all (fun w => w.data.all (fun c => !isDigitChar c) &&
      !hasSub w.data "around $".data)) = true := by
  decide

theorem budget_keywords_clear_dollar :
    ((upToAlts ++ around_words ++ upto_kw_words ++ atleast_kw_words).all
      (fun w => w.data.all (fun c => !isDigitChar c) &&
        !hasSub w.data "$".data)) = true := by
  decide

/-! The two universally-quantified budget-parsing shapes: `"around $X"`
and a bare `"$X"`, for an arbitrary digit string `X`. -/

theorem extract_budget_around (ds : List Char) (hne : ds ≠ [])
    (hd : ∀ c ∈ ds, isDigitChar c = true) :
    extract_budget ("around $".data ++ ds) =
      (some ((digitsToNat ds : ℚ) * (8/10)), some ((digitsToNat ds : ℚ) * (12/10))) := by
  have hconv : convert_word_numbers ("around $".data ++ ds) = "around $".data ++ ds := by
    apply convert_word_numbers_eq_self
    intro p hp
    have hfree : ∀ c ∈ p.1.data, isDigitChar c = false := by
      have h1 := List.all_eq_true.mp numbers_dicts_digit_free p hp
      intro c hc
      simpa using List.all_eq_true.mp h1 c hc
    rw [hasInfixCI_append_digits p.1.data hfree ds hd "around $".data]
    simpa using List.all_eq_true.mp numbers_dicts_not_in_around p hp
  have hlow : lowerStr ("around $".data ++ ds) = "around $".data ++ ds := by
    rw [lowerStr_append, lowerStr_digits ds hd]
    rw [(by decide : lowerStr "around $".data = "around $".data)]
  have hupto : searchUpTo ("around $".data ++ ds) = none := by
    apply searchUpTo_none
    intro a ha
    have h1 := List.all_eq_true.mp upToAlts_clear_around a ha
    simp only [Bool.and_eq_true] at h1
    have hfree : ∀ c ∈ a.data, isDigitChar c = false := by
      intro c hc
      simpa using List.all_eq_true.mp h1.1 c hc
    rw [hasSub_append_digits a.data hfree ds hd]
    simpa using h1.2
  have hdollar : findDollarAmounts ("around $".data ++ ds) = [(digitsToNat ds : ℚ)] := by
    have hstep : findDollarAmounts ("around $".data ++ ds) =
        findDollarAmountsF (ds.length + 1) ('$' :: ds) := rfl
    rw [hstep]
    simp only [findDollarAmountsF]
    rw [skipSpaces_all_digits ds hd, parseAmount_all_digits ds hne hd]
    simp [findDollarAmountsF_nil]
  have htrail : findTrailingDollar ("around $".data ++ ds) = [] := by
    have hstep : findTrailingDollar ("around $".data ++ ds) =
        findTrailingDollarF ds.length ds := rfl
    rw [hstep]
    exact findTrailingDollarF_all_digits ds.length ds hd
  have hctx : findBudgetContext ("around $".data ++ ds) = [] := by
    have hstep : findBudgetContext ("around $".data ++ ds) =
        findBudgetContextF ds.length ds := rfl
    rw [hstep]
    exact findBudgetContextF_all_digits ds.length ds hd
  have hrange : rangeBranch ("around $".data ++ ds) ("around $".data ++ ds) = none := by
    unfold rangeBranch
    have : searchRange ("around $".data ++ ds) = none := by
      have hstep : searchRange ("around $".data ++ ds) = searchRangeGo 8 ds := rfl
      rw [hstep]
      exact searchRangeGo_all_digits ds hd 8
    rw [this]
  simp only [extract_budget]
  rw [hconv, hlow, hupto, hdollar, htrail, hctx, hrange]
  rfl

theorem extract_budget_bare_dollar (ds : List Char) (hne : ds ≠ [])
    (hd : ∀ c ∈ ds, isDigitChar c = true) :
    extract_budget ("$".data ++ ds) = (none, some ((digitsToNat ds : ℚ))) := by
  have hkw : ∀ w ∈ upToAlts ++ around_words ++ upto_kw_words ++ atleast_kw_words,
      hasSub w.data ("$".data ++ ds) = false := by
    intro w hw
    have h1 := List.all_eq_true.mp budget_keywords_clear_dollar w hw
    simp only [Bool.and_eq_true] at h1
    have hfree : ∀ c ∈ w.data, isDigitChar c = false := by
      intro c hc
      simpa using List.all_eq_true.mp h1.1 c hc
    rw [hasSub_append_digits w.data hfree ds hd]
    simpa using h1.2
  have hconv : convert_word_numbers ("$".data ++ ds) = "$".data ++ ds := by
    apply convert_word_numbers_eq_self
    intro p hp
    have hfree : ∀ c ∈ p.1.data, isDigitChar c = false := by
      have h1 := List.all_eq_true.mp numbers_dicts_digit_free p hp
      intro c hc
      simpa using List.all_eq_true.mp h1 c hc
    rw [hasInfixCI_append_digits p.1.data hfree ds hd "$".data]
    simpa using List.all_eq_true.mp numbers_dicts_not_in_dollar p hp
  have hlow : lowerStr ("$".data ++ ds) = "$".data ++ ds := by
    rw [lowerStr_append, lowerStr_digits ds hd]
    rw [(by decide : lowerStr "$".data = "$".data)]
  have hupto : searchUpTo ("$".data ++ ds) = none := by
    apply searchUpTo_none
    intro a ha
    exact hkw a (by simp [ha])
  have hdollar : findDollarAmounts ("$".data ++ ds) = [(digitsToNat ds : ℚ)] := by
    have hstep : findDollarAmounts ("$".data ++ ds) =
        findDollarAmountsF (ds.length + 1) ('$' :: ds) := rfl
    rw [hstep]
    simp only [findDollarAmountsF]
    rw [skipSpaces_all_digits ds hd, parseAmount_all_digits ds hne hd]
    simp [findDollarAmountsF_nil]
  have htrail : findTrailingDollar ("$".data ++ ds) = [] := by
    have hstep : findTrailingDollar ("$".data ++ ds) =
        findTrailingDollarF ds.length ds := rfl
    rw [hstep]
    exact findTrailingDollarF_all_digits ds.length ds hd
  have hctx : findBudgetContext ("$".data ++ ds) = [] := by
    have hstep : findBudgetContext ("$".data ++ ds) =
        findBudgetContextF ds.length ds := rfl
    rw [hstep]
    exact findBudgetContextF_all_digits ds.length ds hd
  have hrange : rangeBranch ("$".data ++ ds) ("$".data ++ ds) = none := by
    unfold rangeBranch
    have : searchRange ("$".data ++ ds) = none := by
      have hstep : searchRange ("$".data ++ ds) = searchRangeGo 1 ds := rfl
      rw [hstep]
      exact searchRangeGo_all_digits ds hd 1
    rw [this]
  have haround : (around_words.any (fun w => hasSub w.data ("$".data ++ ds))) = false :=
    any_hasSub_false _ _ (fun w hw => hkw w (by simp [hw]))
  have hupto2 : (upto_kw_words.any (fun w => hasSub w.data ("$".data ++ ds))) = false :=
    any_hasSub_false _ _ (fun w hw => hkw w (by simp [hw]))
  have hatleast : (atleast_kw_words.any (fun w => hasSub w.data ("$".data ++ ds))) = false :=
    any_hasSub_false _ _ (fun w hw => hkw w (by simp [hw]))
  simp only [extract_budget]
  rw [hconv, hlow, hupto, hdollar, htrail, hctx, hrange]
  rw [show ([(digitsToNat ds : ℚ)] ++ [] ++ [] : List ℚ) = [(digitsToNat ds : ℚ)] by simp]
  simp only [amountsFallback]
  rw [if_neg (by simp)]
  rw [if_neg (by rw [haround]; simp)]
  rw [if_neg (by rw [hupto2]; simp)]
  rw [if_neg (by rw [hatleast]; simp)]


/-! Sortedness of insertion sort by a key into a linear order. -/

theorem sorted_insertionSort_key {α : Type _} {β : Type _} [LinearOrder β]
    (key : α → β) [DecidableRel (fun a b : α => key a ≤ key b)] (l : List α) :
    (List.insertionSort (fun a b => key a ≤ key b) l).Sorted
      (fun a b => key a ≤ key b) := by
  haveI : IsTotal α (fun a b => key a ≤ key b) := ⟨fun a b => le_total _ _⟩
  haveI : IsTrans α (fun a b => key a ≤ key b) := ⟨fun a b c h1 h2 => le_trans h1 h2⟩
  exact List.sorted_insertionSort _ l

theorem sorted_insertionSort_key_desc {α : Type _} {β : Type _} [LinearOrder β]
    (key : α → β) [DecidableRel (fun a b : α => key b ≤ key a)] (l : List α) :
    (List.insertionSort (fun a b => key b ≤ key a) l).Sorted
      (fun a b => key b ≤ key a) := by
  haveI : IsTotal α (fun a b => key b ≤ key a) := ⟨fun a b => le_total _ _⟩
  haveI : IsTrans α (fun a b => key b ≤ key a) := ⟨fun a b c h1 h2 => le_trans h2 h1⟩
  exact List.sorted_insertionSort _ l

/-! One-hour default for bookings without an end time. -/

theorem conflicts_normalizeBooking (s e : ℕ) (b : Booking) :
    DoubleBookingPreventorTool.conflicts s e (normalizeBooking b) =
      DoubleBookingPreventorTool.conflicts s e b := by
  unfold normalizeBooking
  split
  · rename_i d st hd hst hend
    unfold DoubleBookingPreventorTool.conflicts DoubleBookingPreventorTool.bookingWindow
    simp only [hd, hst, hend]
    rw [Nat.add_assoc]
  · rfl

theorem execute_map_normalizeBooking (slot dur : ℕ) (bookings : List Booking) :
    DoubleBookingPreventorTool.execute slot dur (bookings.map normalizeBooking) =
      DoubleBookingPreventorTool.execute slot dur bookings := by
  unfold DoubleBookingPreventorTool.execute
  rw [List.all_map]
  induction bookings with
  | nil => rfl
  | cons b rest ih =>
    show (_ && _) = (_ && _)
    rw [ih]
    simp only [Function.comp]
    rw [conflicts_normalizeBooking]

theorem normalizeBookedTime_date (b : BookedTime) :
    (normalizeBookedTime b).date = b.date := by
  unfold normalizeBookedTime
  split <;> rfl

theorem slotBlocked_normalizeBookedTime (s e : ℕ) (b : BookedTime) :
    CalendarQueryTool.slotBlocked s e (normalizeBookedTime b) =
      CalendarQueryTool.slotBlocked s e b := by
  unfold normalizeBookedTime
  split
  · rename_i hend
    unfold CalendarQueryTool.slotBlocked
    simp only [hend]
  · rfl

theorem daySlots_map_normalize (day : ℕ) (booked : List BookedTime) :
    CalendarQueryTool.daySlots day (booked.map normalizeBookedTime) =
      CalendarQueryTool.daySlots day booked := by
  unfold CalendarQueryTool.daySlots
  have h1 : (booked.map normalizeBookedTime).filter (fun b => b.date = day) =
      (booked.filter (fun b => b.date = day)).map normalizeBookedTime := by
    rw [List.filter_map]
    congr 1
    apply List.filter_congr
    intro b _
    simp [Function.comp, normalizeBookedTime_date]
  dsimp only
  rw [h1]
  congr 1
  funext st
  rw [List.all_map]
  have h2 : ((fun b => !CalendarQueryTool.slotBlocked st (st + 30) b) ∘ normalizeBookedTime) =
      (fun b => !CalendarQueryTool.slotBlocked st (st + 30) b) := by
    funext b
    simp [Function.comp, slotBlocked_normalizeBookedTime]
  rw [h2]

theorem calcAvailableSlots_map_normalize (startDay endDay : ℕ)
    (booked : List BookedTime) :
    CalendarQueryTool.calcAvailableSlots startDay endDay
        (booked.map normalizeBookedTime) =
      CalendarQueryTool.calcAvailableSlots startDay endDay booked := by
  unfold CalendarQueryTool.calcAvailableSlots
  congr 1
  funext day
  exact daySlots_map_normalize day booked


theorem step_merged (now : NowInfo) (message : String) (current : Preferences) :
    (ConversationAgent.step now message current).merged =
      ConversationAgent.mergedPrefs now message current := by
  unfold ConversationAgent.step
  cases hr : (ReadinessDetectorTool.execute
      (ConversationAgent.mergedPrefs now message current)).1 <;>
    simp only [hr] <;> rfl

theorem mergeExtracted_service_type (c : Preferences) (p : ExtractedPrefs) :
    (ConversationAgent.mergeExtracted c p).service_type = c.service_type := rfl

theorem setLocation_service_type (X : Preferences) (v : Option String) :
    (({ X with location := v } : Preferences)).service_type = X.service_type := rfl

theorem mergedPrefs_service_type (now : NowInfo) (message : String)
    (current : Preferences) :
    (ConversationAgent.mergedPrefs now message current).service_type =
      (ConversationAgent.applyIntent message current).service_type := by
  unfold ConversationAgent.mergedPrefs
  dsimp only
  split <;> split <;>
    simp only [setLocation_service_type, mergeExtracted_service_type]

/-! ### Claim theorems -/

/-- C2: every slot retained by the availability resolver's
double-booking validation step does not overlap any well-formed
existing booking (one having a date, a start time and an end time) of
that provider, where overlap of the slot interval
`[s, s + service_duration)` with the booking interval means
`slot_start < booking_end AND slot_end > booking_start`. -/
theorem no_double_booking_spec (matching_slots : List ℕ) (service_duration : ℕ)
    (booked_times : List Booking) (s : ℕ) (b : Booking) (d st et : ℕ)
    (hs : s ∈ AvailabilityAgent.validateSlots matching_slots service_duration booked_times)
    (hb : b ∈ booked_times) (hd : b.date = some d) (hst : b.start_time = some st)
    (het : b.end_time = some et) :
    ¬(s < d * 1440 + et ∧ d * 1440 + st < s + service_duration) := by
  unfold AvailabilityAgent.validateSlots at hs
  rw [List.mem_filter] at hs
  have hall := hs.2
  unfold DoubleBookingPreventorTool.execute at hall
  rw [List.all_eq_true] at hall
  have hc := hall b hb
  unfold DoubleBookingPreventorTool.conflicts DoubleBookingPreventorTool.bookingWindow at hc
  rw [hd, hst, het] at hc
  intro hcon
  rw [show (match (some d : Option ℕ), (some st : Option ℕ) with
    | some d, some st =>
      some (d * 1440 + st,
        match (some et : Option ℕ) with
        | some et => d * 1440 + et
        | none => d * 1440 + st + 60)
    | _, _ => (none : Option (ℕ × ℕ))) = some (d * 1440 + st, d * 1440 + et) from rfl] at hc
  simp only [decide_eq_true_eq, Bool.not_eq_true', Bool.and_eq_false_iff,
    decide_eq_false_iff_not] at hc
  rcases hc with hc | hc
  · exact hc hcon.1
  · exact hc hcon.2

/-- C2 witness: a concrete retained slot and a concrete well-formed
booking do not overlap. -/
theorem no_double_booking_witness :
    ¬((600 : ℕ) < 0 * 1440 + 760 ∧ 0 * 1440 + 700 < 600 + 30) :=
  no_double_booking_spec [600] 30 [⟨some 0, some 700, some 760⟩] 600
    ⟨some 0, some 700, some 760⟩ 0 700 760 (by decide) (by decide) rfl rfl rfl

/-- C10: a booking without an end time is treated as occupying exactly
one hour after its start, both by the double-booking conflict check
(per booking and lifted to the whole tool) and by the available-slot
generator's freeness check (per booking and lifted to the whole
generator); `normalizeBooking`/`normalizeBookedTime` replace the
missing end time by start + 60 minutes. -/
theorem missing_end_time_one_hour_spec :
    (∀ (slot_start slot_end d st : ℕ),
      DoubleBookingPreventorTool.conflicts slot_start slot_end
        ⟨some d, some st, none⟩ =
      DoubleBookingPreventorTool.conflicts slot_start slot_end
        ⟨some d, some st, some (st + 60)⟩) ∧
    (∀ (slot service_duration : ℕ) (bookings : List Booking),
      DoubleBookingPreventorTool.execute slot service_duration
        (bookings.map normalizeBooking) =
      DoubleBookingPreventorTool.execute slot service_duration bookings) ∧
    (∀ (slot_start slot_end d st : ℕ),
      CalendarQueryTool.slotBlocked slot_start slot_end ⟨d, st, none⟩ =
      CalendarQueryTool.slotBlocked slot_start slot_end ⟨d, st, some (st + 60)⟩) ∧
    (∀ (startDay endDay : ℕ) (booked : List BookedTime),
      CalendarQueryTool.calcAvailableSlots startDay endDay
        (booked.map normalizeBookedTime) =
      CalendarQueryTool.calcAvailableSlots startDay endDay booked) := by
  refine ⟨?_, execute_map_normalizeBooking, ?_, calcAvailableSlots_map_normalize⟩
  · intro slot_start slot_end d st
    have h := conflicts_normalizeBooking slot_start slot_end ⟨some d, some st, none⟩
    rw [show normalizeBooking ⟨some d, some st, none⟩ =
      ⟨some d, some st, some (st + 60)⟩ from rfl] at h
    exact h.symm
  · intro slot_start slot_end d st
    have h := slotBlocked_normalizeBookedTime slot_start slot_end ⟨d, st, none⟩
    rw [show normalizeBookedTime ⟨d, st, none⟩ =
      ⟨d, st, some (st + 60)⟩ from rfl] at h
    exact h.symm

/-- C4: budget parsing — for every amount X written as a digit string,
`"around $X"` yields bounds `[0.8X, 1.2X]`; `"$30-$60"` yields
`[30, 60]` regardless of order; `"up to $80"` yields `[0, 80]`; and a
bare `"$X"` yields a max-only bound `[null, X]`. -/
theorem budget_parsing_spec (ds : List Char) (hne : ds ≠ [])
    (hd : ∀ c ∈ ds, isDigitChar c = true) :
    extract_budget ("around $".data ++ ds) =
      (some ((digitsToNat ds : ℚ) * (8/10)), some ((digitsToNat ds : ℚ) * (12/10))) ∧
    extract_budget "$30-$60".data = (some 30, some 60) ∧
    extract_budget "$60-$30".data = (some 30, some 60) ∧
    extract_budget "up to $80".data = (some 0, some 80) ∧
    extract_budget ("$".data ++ ds) = (none, some ((digitsToNat ds : ℚ))) :=
  ⟨extract_budget_around ds hne hd, by decide, by decide, by decide,
    extract_budget_bare_dollar ds hne hd⟩

/-- C4 witness at the digit string "60". -/
theorem budget_parsing_witness :
    extract_budget ("around $".data ++ ['6', '0']) =
      (some ((digitsToNat ['6', '0'] : ℚ) * (8/10)),
        some ((digitsToNat ['6', '0'] : ℚ) * (12/10))) ∧
    extract_budget "$30-$60".data = (some 30, some 60) ∧
    extract_budget "$60-$30".data = (some 30, some 60) ∧
    extract_budget "up to $80".data = (some 0, some 80) ∧
    extract_budget ("$".data ++ ['6', '0']) = (none, some ((digitsToNat ['6', '0'] : ℚ))) :=
  budget_parsing_spec ['6', '0'] (by decide) (by decide)

/-- C5: time-vs-budget disambiguation — the utterance
`"available between 9 and 5"` yields no budget bounds at all; the
skip decision `is_likely_time_range` holds exactly when both values are
below 24 and either the match windows contain a time indicator or there
is no currency/budget keyword and the larger value is below 25; and
whenever that decision holds for a matched range, the range branch
contributes no budget. -/
theorem time_vs_budget_spec :
    extract_budget "available between 9 and 5".data = (none, none) ∧
    (∀ (a b : ℚ) (t c : Bool),
      is_likely_time_range a b t c = true ↔
        (a < 24 ∧ b < 24 ∧ (t = true ∨ (c = false ∧ max a b < 25)))) ∧
    (∀ (tc tl : List Char) (mn mx : ℚ) (ms me : ℕ),
      searchRange tl = some (mn, mx, ms, me) →
      is_likely_time_range mn mx (range_has_time_context tc ms me)
        (range_has_budget_context tl) = true →
      rangeBranch tc tl = none) := by
  refine ⟨by decide, ?_, ?_⟩
  · intro a b t c
    unfold is_likely_time_range
    simp only [Bool.or_eq_true, Bool.and_eq_true, Bool.not_eq_true',
      decide_eq_true_eq, decide_eq_false_iff_not]
    constructor
    · rintro (⟨⟨ha, hb⟩, ht⟩ | ⟨⟨⟨ha, hb⟩, hc⟩, h25⟩)
      · exact ⟨ha, hb, Or.inl ht⟩
      · refine ⟨ha, hb, Or.inr ⟨hc, ?_⟩⟩
        have h1 : a < 25 := lt_trans ha (by norm_num)
        have h2 : b < 25 := lt_trans hb (by norm_num)
        exact max_lt h1 h2
    · rintro ⟨ha, hb, ht | ⟨hc, hmax⟩⟩
      · exact Or.inl ⟨⟨ha, hb⟩, ht⟩
      · refine Or.inr ⟨⟨⟨ha, hb⟩, hc⟩, ?_⟩
        intro h25
        have := le_max_right a b
        linarith
  · intro tc tl mn mx ms me h1 h2
    unfold rangeBranch
    rw [h1]
    simp only [h2, if_true]

/-- C5 witness: the concrete disputed utterance parses to no budget. -/
theorem time_vs_budget_witness :
    extract_budget "available between 9 and 5".data = (none, none) :=
  time_vs_budget_spec.1


/-- The widened-range test, spelled as the claim does. -/
theorem withinFlexible_some_iff (budget_min : Option ℚ) (bmax price : ℚ) :
    BudgetFilterTool.withinFlexible budget_min (some bmax) price = true ↔
      (budget_min.getD 0) * (9/10) ≤ price ∧ price ≤ bmax * (11/10) := by
  unfold BudgetFilterTool.withinFlexible
  cases budget_min <;> simp

/-- C8: with a set `budget_max`, the budget filter keeps exactly the
services whose price lies in `[budget_min*0.9 (or 0 when unset),
budget_max*1.1]` (a permutation of the filtered input, with the
membership characterisation), the output is sorted ascending by price,
a service priced exactly `budget_max*1.1` passes, and one priced
`budget_max*1.11` does not.  The hypotheses are the record invariant
`budget_min ≤ budget_max` and a positive budget. -/
theorem budget_filter_spec (budget_min : Option ℚ) (bmax : ℚ)
    (services : List Service) (hpos : 0 < bmax)
    (hmin : budget_min.getD 0 ≤ bmax) :
    (BudgetFilterTool.execute budget_min (some bmax) services).Perm
      (services.filter (fun s =>
        BudgetFilterTool.withinFlexible budget_min (some bmax)
          (BudgetFilterTool.priceOf s))) ∧
    (BudgetFilterTool.execute budget_min (some bmax) services).Sorted
      (fun a b => BudgetFilterTool.priceOf a ≤ BudgetFilterTool.priceOf b) ∧
    (∀ s, s ∈ BudgetFilterTool.execute budget_min (some bmax) services ↔
      s ∈ services ∧ (budget_min.getD 0) * (9/10) ≤ BudgetFilterTool.priceOf s ∧
        BudgetFilterTool.priceOf s ≤ bmax * (11/10)) ∧
    (∀ s ∈ services, BudgetFilterTool.priceOf s = bmax * (11/10) →
      s ∈ BudgetFilterTool.execute budget_min (some bmax) services) ∧
    (∀ s, BudgetFilterTool.priceOf s = bmax * (111/100) →
      s ∉ BudgetFilterTool.execute budget_min (some bmax) services) := by
  by_cases hs0 : services = []
  · subst hs0
    refine ⟨by simp [BudgetFilterTool.execute], by simp [BudgetFilterTool.execute],
      ?_, by simp, ?_⟩
    · intro s
      simp [BudgetFilterTool.execute]
    · intro s _
      simp [BudgetFilterTool.execute]
  · have hexec : BudgetFilterTool.execute budget_min (some bmax) services =
        List.insertionSort
          (fun a b => BudgetFilterTool.priceOf a ≤ BudgetFilterTool.priceOf b)
          (services.filter (fun s =>
            BudgetFilterTool.withinFlexible budget_min (some bmax)
              (BudgetFilterTool.priceOf s))) := by
      unfold BudgetFilterTool.execute
      rw [if_neg hs0, if_neg (by simp)]
    have hperm : (BudgetFilterTool.execute budget_min (some bmax) services).Perm
        (services.filter (fun s =>
          BudgetFilterTool.withinFlexible budget_min (some bmax)
            (BudgetFilterTool.priceOf s))) := by
      rw [hexec]
      exact List.perm_insertionSort _ _
    have hmem : ∀ s, s ∈ BudgetFilterTool.execute budget_min (some bmax) services ↔
        s ∈ services ∧ (budget_min.getD 0) * (9/10) ≤ BudgetFilterTool.priceOf s ∧
          BudgetFilterTool.priceOf s ≤ bmax * (11/10) := by
      intro s
      rw [hperm.mem_iff, List.mem_filter, withinFlexible_some_iff]
    refine ⟨hperm, ?_, hmem, ?_, ?_⟩
    · rw [hexec]
      exact sorted_insertionSort_key BudgetFilterTool.priceOf _
    · intro s hsin hsEq
      refine (hmem s).2 ⟨hsin, ?_, by rw [hsEq]⟩
      rw [hsEq]
      have h1 : (budget_min.getD 0) * (9/10) ≤ bmax * (9/10) :=
        mul_le_mul_of_nonneg_right hmin (by norm_num)
      have h2 : bmax * (9/10) ≤ bmax * (11/10) := by nlinarith
      linarith
    · intro s hsEq hsin
      have h := ((hmem s).1 hsin).2.2
      rw [hsEq] at h
      nlinarith

/-- C8 witness: budget 20–50; a 55-priced service is exactly at
`50*1.1` and passes, and the characterisation holds concretely. -/
theorem budget_filter_witness :
    (BudgetFilterTool.execute (some 20) (some 50) [⟨1, some 55⟩, ⟨2, some 10⟩]).Perm
      ([⟨1, some 55⟩, ⟨2, some 10⟩].filter (fun s =>
        BudgetFilterTool.withinFlexible (some 20) (some 50)
          (BudgetFilterTool.priceOf s))) ∧
    (BudgetFilterTool.execute (some 20) (some 50) [⟨1, some 55⟩, ⟨2, some 10⟩]).Sorted
      (fun a b => BudgetFilterTool.priceOf a ≤ BudgetFilterTool.priceOf b) ∧
    (∀ s, s ∈ BudgetFilterTool.execute (some 20) (some 50) [⟨1, some 55⟩, ⟨2, some 10⟩] ↔
      s ∈ [⟨1, some 55⟩, ⟨2, some 10⟩] ∧
        ((some (20:ℚ)).getD 0) * (9/10) ≤ BudgetFilterTool.priceOf s ∧
        BudgetFilterTool.priceOf s ≤ 50 * (11/10)) ∧
    (∀ s ∈ [⟨1, some 55⟩, ⟨2, some 10⟩], BudgetFilterTool.priceOf s = 50 * (11/10) →
      s ∈ BudgetFilterTool.execute (some 20) (some 50) [⟨1, some 55⟩, ⟨2, some 10⟩]) ∧
    (∀ s, BudgetFilterTool.priceOf s = 50 * (111/100) →
      s ∉ BudgetFilterTool.execute (some 20) (some 50) [⟨1, some 55⟩, ⟨2, some 10⟩]) :=
  budget_filter_spec (some 20) 50 [⟨1, some 55⟩, ⟨2, some 10⟩] (by norm_num) (by norm_num)

/-- C9: the location filter passes everything through unchanged when a
user coordinate is missing; with coordinates, every output provider has
known coordinates within Haversine distance `max_distance` of the user,
and the output is sorted non-decreasing in the recorded (rounded)
distance. -/
theorem location_filter_spec (ulat ulon : ℝ) (max_distance : ℝ)
    (providers : List GeoService) :
    (∀ lonO, LocationFilterTool.execute none lonO max_distance providers = providers) ∧
    (∀ latO, LocationFilterTool.execute latO none max_distance providers = providers) ∧
    (∀ p ∈ LocationFilterTool.execute (some ulat) (some ulon) max_distance providers,
      ∃ plat plon, p.location_lat = some plat ∧ p.location_lon = some plon ∧
        LocationFilterTool.haversine_distance ulat ulon plat plon ≤ max_distance) ∧
    (LocationFilterTool.execute (some ulat) (some ulon) max_distance providers).Sorted
      (fun a b => a.distance_miles.getD 0 ≤ b.distance_miles.getD 0) := by
  refine ⟨?_, ?_, ?_, ?_⟩
  · intro lonO
    cases lonO <;> rfl
  · intro latO
    cases latO <;> rfl
  · intro p hp
    unfold LocationFilterTool.execute at hp
    have hp2 := (List.perm_insertionSort _ _).subset hp
    rw [List.mem_filterMap] at hp2
    obtain ⟨q, hq, hf⟩ := hp2
    revert hf
    cases hlat : q.location_lat with
    | none => intro hf; simp at hf
    | some plat =>
      cases hlon : q.location_lon with
      | none => intro hf; simp at hf
      | some plon =>
        intro hf
        simp only at hf
        split at hf
        · rename_i hle
          simp only [Option.some.injEq] at hf
          refine ⟨plat, plon, ?_, ?_, hle⟩
          · rw [← hf]
          · rw [← hf]
        · simp at hf
  · unfold LocationFilterTool.execute
    exact sorted_insertionSort_key (fun p : GeoService => p.distance_miles.getD 0) _

/-- C9 witness at the origin with no providers. -/
theorem location_filter_witness :
    (∀ lonO, LocationFilterTool.execute none lonO 10 ([] : List GeoService) = []) ∧
    (∀ latO, LocationFilterTool.execute latO none 10 ([] : List GeoService) = []) ∧
    (∀ p ∈ LocationFilterTool.execute (some (0:ℝ)) (some (0:ℝ)) 10 ([] : List GeoService),
      ∃ plat plon, p.location_lat = some plat ∧ p.location_lon = some plon ∧
        LocationFilterTool.haversine_distance 0 0 plat plon ≤ 10) ∧
    (LocationFilterTool.execute (some (0:ℝ)) (some (0:ℝ)) 10 ([] : List GeoService)).Sorted
      (fun a b => a.distance_miles.getD 0 ≤ b.distance_miles.getD 0) :=
  location_filter_spec 0 0 10 []


/-- C1 counterexample: the claim says the 0.5 neutral distance score is
used only when the distance is unknown, and that all candidates are
returned.  But the code tests `distance` for Python truthiness, so a
candidate with a KNOWN recorded distance of 0 miles gets the neutral
0.5 instead of `max(1 - 0/10, 0) = 1`; and the code scores only
`candidates[:10]`, so an eleventh candidate is dropped. -/
theorem ranking_engine_counterexample :
    ((RankingAgent.execute ⟨some 100⟩ [⟨5, 50, 3, some 0⟩]).map
        (fun rp => rp.distance_score) = [round2 (1/2)] ∧
      round2 ((1:ℚ)/2) ≠ round2 (max (1 - (0:ℚ)/10) 0)) ∧
    (RankingAgent.execute ⟨some 100⟩
      (List.replicate 11 ⟨5, 50, 3, some 2⟩)).length = 10 := by
  refine ⟨⟨?_, ?_⟩, ?_⟩
  · simp [RankingAgent.execute, RankingAgent.scoreCandidate,
      List.insertionSort, List.orderedInsert]
  · have h1 : round2 ((1:ℚ)/2) = 1/2 := by norm_num [round2, round_eq]
    have h2 : round2 (max (1 - (0:ℚ)/10) 0) = 1 := by norm_num [round2, round_eq]
    rw [h1, h2]
    norm_num
  · unfold RankingAgent.execute
    rw [(List.perm_insertionSort _ _).length_eq]
    simp

/-- C1 (amended): for preferences with a set `budget_max`, every ranked
provider returned carries the component scores rating/5, price score 1
iff price ≤ budget_max, availability score `min(slots/3, 1)`, and
distance score `max(1 − d/10, 0)` when the recorded distance `d` is
nonzero and the neutral 0.5 otherwise (a recorded distance of 0 is
treated as absent), each rounded to two decimals; the overall score is
`100 * (0.40*rating_raw + 0.30*price_raw + 0.20*availability_raw +
0.10*distance_raw)` rounded to two decimals; and the output is exactly
the scored first ten candidates sorted descending by overall score,
ties keeping input order (stable sort). -/
theorem ranking_engine_spec (prefs : RankPrefs) (bmax : ℚ)
    (candidates : List RankCandidate) (hb : prefs.budget_max = some bmax) :
    (∀ rp ∈ RankingAgent.execute prefs candidates,
      rp.rating_score = round2 (rp.candidate.rating / 5) ∧
      rp.price_score = round2 (if rp.candidate.price ≤ bmax then 1 else 0) ∧
      rp.availability_score = round2 (min ((rp.candidate.slots_count : ℚ) / 3) 1) ∧
      rp.distance_score = round2 (if rp.candidate.distance_miles.getD 0 ≠ 0 then
        max (1 - rp.candidate.distance_miles.getD 0 / 10) 0 else 1/2) ∧
      rp.overall_score = round2 (100 * ((40/100) * (rp.candidate.rating / 5) +
        (30/100) * (if rp.candidate.price ≤ bmax then (1:ℚ) else 0) +
        (20/100) * min ((rp.candidate.slots_count : ℚ) / 3) 1 +
        (10/100) * (if rp.candidate.distance_miles.getD 0 ≠ 0 then
          max (1 - rp.candidate.distance_miles.getD 0 / 10) 0 else 1/2)))) ∧
    (RankingAgent.execute prefs candidates).Sorted
      (fun a b => b.overall_score ≤ a.overall_score) ∧
    (RankingAgent.execute prefs candidates).Perm
      ((candidates.take 10).map (RankingAgent.scoreCandidate prefs)) ∧
    (∀ k, (RankingAgent.execute prefs candidates).filter
        (fun rp => decide (rp.overall_score = k)) =
      ((candidates.take 10).map (RankingAgent.scoreCandidate prefs)).filter
        (fun rp => decide (rp.overall_score = k))) := by
  refine ⟨?_, ?_, ?_, ?_⟩
  · intro rp hm
    unfold RankingAgent.execute at hm
    have hm2 := (List.perm_insertionSort _ _).subset hm
    obtain ⟨c, _, rfl⟩ := List.mem_map.1 hm2
    refine ⟨?_, ?_, ?_, ?_, ?_⟩
    · simp [RankingAgent.scoreCandidate]
    · simp [RankingAgent.scoreCandidate, hb]
    · simp [RankingAgent.scoreCandidate]
    · simp [RankingAgent.scoreCandidate]
    · simp only [RankingAgent.scoreCandidate, hb, Option.getD_some]
      congr 1
      ring
  · unfold RankingAgent.execute
    exact sorted_insertionSort_key_desc
      (fun rp : RankedProvider => rp.overall_score) _
  · unfold RankingAgent.execute
    exact List.perm_insertionSort _ _
  · intro k
    unfold RankingAgent.execute
    exact filter_insertionSort _ (fun rp : RankedProvider => rp.overall_score)
      (fun a b h => le_of_eq h.symm) k _

/-- C1 witness: the amended ranking specification at a concrete
candidate list and budget. -/
theorem ranking_engine_witness :
    (∀ rp ∈ RankingAgent.execute ⟨some 100⟩ [⟨4, 50, 2, some 2⟩],
      rp.rating_score = round2 (rp.candidate.rating / 5) ∧
      rp.price_score = round2 (if rp.candidate.price ≤ 100 then 1 else 0) ∧
      rp.availability_score = round2 (min ((rp.candidate.slots_count : ℚ) / 3) 1) ∧
      rp.distance_score = round2 (if rp.candidate.distance_miles.getD 0 ≠ 0 then
        max (1 - rp.candidate.distance_miles.getD 0 / 10) 0 else 1/2) ∧
      rp.overall_score = round2 (100 * ((40/100) * (rp.candidate.rating / 5) +
        (30/100) * (if rp.candidate.price ≤ 100 then (1:ℚ) else 0) +
        (20/100) * min ((rp.candidate.slots_count : ℚ) / 3) 1 +
        (10/100) * (if rp.candidate.distance_miles.getD 0 ≠ 0 then
          max (1 - rp.candidate.distance_miles.getD 0 / 10) 0 else 1/2)))) ∧
    (RankingAgent.execute ⟨some 100⟩ [⟨4, 50, 2, some 2⟩]).Sorted
      (fun a b => b.overall_score ≤ a.overall_score) ∧
    (RankingAgent.execute ⟨some 100⟩ [⟨4, 50, 2, some 2⟩]).Perm
      (([⟨4, 50, 2, some 2⟩].take 10).map (RankingAgent.scoreCandidate ⟨some 100⟩)) ∧
    (∀ k, (RankingAgent.execute ⟨some 100⟩ [⟨4, 50, 2, some 2⟩]).filter
        (fun rp => decide (rp.overall_score = k)) =
      (([⟨4, 50, 2, some 2⟩].take 10).map
          (RankingAgent.scoreCandidate ⟨some 100⟩)).filter
        (fun rp => decide (rp.overall_score = k))) :=
  ranking_engine_spec ⟨some 100⟩ 100 [⟨4, 50, 2, some 2⟩] rfl


/-- C6: with the current date a Thursday, "next thursday" resolves the
preferred date to exactly 7 days later and a bare "thursday" (same
weekday, no constraint word) also resolves 7 days later; with the
current date a Monday, "thursday before 3pm" resolves to the coming
Thursday, 3 days ahead. -/
theorem weekday_resolution_spec (now nowM : NowInfo)
    (hThu : now.days % 7 = 3) (hMon : nowM.days % 7 = 0) :
    (extract_datetime_details "next thursday".data now).preferred_date =
      some ((now.days : ℤ) + 7) ∧
    (extract_datetime_details "thursday".data now).preferred_date =
      some ((now.days : ℤ) + 7) ∧
    (extract_datetime_details "thursday before 3pm".data nowM).preferred_date =
      some ((nowM.days : ℤ) + 3) := by
  refine ⟨?_, ?_, ?_⟩
  · show extract_date (lowerStr "next thursday".data) now = some ((now.days : ℤ) + 7)
    simp +decide [extract_date, List.find?, days_of_week, Option.map, hasSub, matchLit, lowerStr, toLowerChar, List.map, hThu]
  · show extract_date (lowerStr "thursday".data) now = some ((now.days : ℤ) + 7)
    simp +decide [extract_date, List.find?, days_of_week, Option.map, hasSub, matchLit, lowerStr, toLowerChar, List.map, hThu]
  · show extract_date (lowerStr "thursday before 3pm".data) nowM =
      some ((nowM.days : ℤ) + 3)
    simp +decide [extract_date, List.find?, days_of_week, Option.map, hasSub, matchLit, lowerStr, toLowerChar, List.map, hMon]

/-- C6 witness: day 3 is a Thursday and day 7 a Monday in the
day-count model (day 0 a Monday). -/
theorem weekday_resolution_witness :
    (extract_datetime_details "next thursday".data ⟨3, 9⟩).preferred_date =
      some ((3 : ℤ) + 7) ∧
    (extract_datetime_details "thursday".data ⟨3, 9⟩).preferred_date =
      some ((3 : ℤ) + 7) ∧
    (extract_datetime_details "thursday before 3pm".data ⟨7, 9⟩).preferred_date =
      some ((7 : ℤ) + 3) :=
  weekday_resolution_spec ⟨3, 9⟩ ⟨7, 9⟩ (by decide) (by decide)


/-- C3: the preference merge is non-destructive.  Every field of the
record produced by `PreferenceExtractorTool.execute` equals the prior
value whenever the corresponding sub-extraction yields nothing, a set
field can never become unset (`isSome` is preserved), `special_notes`
always carries over, and the agent never drops a set `service_type`. -/
theorem merge_monotonicity_spec (now : NowInfo) (message : String)
    (current : Preferences) :
    ((extract_budget message.data).1 = none →
      (PreferenceExtractorTool.execute now message current).budget_min =
        current.budget_min) ∧
    ((extract_budget message.data).2 = none →
      (PreferenceExtractorTool.execute now message current).budget_max =
        current.budget_max) ∧
    (extract_urgency message.data = none →
      (PreferenceExtractorTool.execute now message current).time_urgency =
        current.time_urgency) ∧
    (extract_artisan_preference message.data = none →
      (PreferenceExtractorTool.execute now message current).artisan_preference =
        current.artisan_preference) ∧
    ((extract_datetime_details message.data now).preferred_date = none →
      (PreferenceExtractorTool.execute now message current).preferred_date =
        current.preferred_date) ∧
    ((extract_datetime_details message.data now).preferred_time = none →
      (PreferenceExtractorTool.execute now message current).preferred_time =
        current.preferred_time) ∧
    ((extract_datetime_details message.data now).time_constraint = none →
      (PreferenceExtractorTool.execute now message current).time_constraint =
        current.time_constraint) ∧
    (extract_location message.data = none →
      (PreferenceExtractorTool.execute now message current).location =
        current.location) ∧
    (PreferenceExtractorTool.execute now message current).special_notes =
      current.special_notes ∧
    (current.budget_min.isSome →
      (PreferenceExtractorTool.execute now message current).budget_min.isSome) ∧
    (current.budget_max.isSome →
      (PreferenceExtractorTool.execute now message current).budget_max.isSome) ∧
    (current.time_urgency.isSome →
      (PreferenceExtractorTool.execute now message current).time_urgency.isSome) ∧
    (current.artisan_preference.isSome →
      (PreferenceExtractorTool.execute now message current).artisan_preference.isSome) ∧
    (current.preferred_date.isSome →
      (PreferenceExtractorTool.execute now message current).preferred_date.isSome) ∧
    (current.preferred_time.isSome →
      (PreferenceExtractorTool.execute now message current).preferred_time.isSome) ∧
    (current.time_constraint.isSome →
      (PreferenceExtractorTool.execute now message current).time_constraint.isSome) ∧
    (current.location.isSome →
      (PreferenceExtractorTool.execute now message current).location.isSome) ∧
    (current.service_type.isSome →
      ((ConversationAgent.step now message current).merged).service_type.isSome) := by
  refine ⟨?_, ?_, ?_, ?_, ?_, ?_, ?_, ?_, ?_, ?_, ?_, ?_, ?_, ?_, ?_, ?_, ?_, ?_⟩
  · intro h
    simp [PreferenceExtractorTool.execute, h]
  · intro h
    simp [PreferenceExtractorTool.execute, h]
  · intro h
    simp [PreferenceExtractorTool.execute, h]
  · intro h
    simp [PreferenceExtractorTool.execute, h]
  · intro h
    simp [PreferenceExtractorTool.execute, h]
  · intro h
    simp [PreferenceExtractorTool.execute, h]
  · intro h
    simp [PreferenceExtractorTool.execute, h]
  · intro h
    simp [PreferenceExtractorTool.execute, h]
  · simp [PreferenceExtractorTool.execute]
  · intro h
    simp only [PreferenceExtractorTool.execute]
    cases hx : (extract_budget message.data).1 <;> simp [hx, h]
  · intro h
    simp only [PreferenceExtractorTool.execute]
    cases hx : (extract_budget message.data).2 <;> simp [hx, h]
  · intro h
    simp only [PreferenceExtractorTool.execute]
    cases hx : extract_urgency message.data <;> simp [hx, h]
  · intro h
    simp only [PreferenceExtractorTool.execute]
    cases hx : extract_artisan_preference message.data <;> simp [hx, h]
  · intro h
    simp only [PreferenceExtractorTool.execute]
    cases hx : (extract_datetime_details message.data now).preferred_date <;>
      simp [hx, h]
  · intro h
    simp only [PreferenceExtractorTool.execute]
    cases hx : (extract_datetime_details message.data now).preferred_time <;>
      simp [hx, h]
  · intro h
    simp only [PreferenceExtractorTool.execute]
    cases hx : (extract_datetime_details message.data now).time_constraint <;>
      simp [hx, h]
  · intro h
    simp only [PreferenceExtractorTool.execute]
    cases hx : extract_location message.data <;> simp [hx, h]
  · intro h
    rw [step_merged, mergedPrefs_service_type]
    cases hx : (IntentParserTool.execute message).1 <;>
      simp [ConversationAgent.applyIntent, hx, h]

/-- C3 witness: merging the signal-free utterance "hello" into a fully
set record changes none of its fields. -/
theorem merge_monotonicity_witness :
    (PreferenceExtractorTool.execute ⟨0, 9⟩ "hello"
      ⟨some "haircut", some 30, some 60, some "today", none, none,
        some 10, some (15, 0), none, some "Boston, MA"⟩).budget_min = some 30 ∧
    (PreferenceExtractorTool.execute ⟨0, 9⟩ "hello"
      ⟨some "haircut", some 30, some 60, some "today", none, none,
        some 10, some (15, 0), none, some "Boston, MA"⟩).location = some "Boston, MA" ∧
    ((ConversationAgent.step ⟨0, 9⟩ "hello"
      ⟨some "haircut", some 30, some 60, some "today", none, none,
        some 10, some (15, 0), none, some "Boston, MA"⟩).merged).service_type.isSome := by
  obtain ⟨h1, h2, h3, h4, h5, h6, h7, h8, h9, h10, h11, h12, h13, h14, h15,
    h16, h17, h18⟩ := merge_monotonicity_spec ⟨0, 9⟩ "hello"
      ⟨some "haircut", some 30, some 60, some "today", none, none,
        some 10, some (15, 0), none, some "Boston, MA"⟩
  refine ⟨?_, ?_, h18 (by decide)⟩
  · rw [h1 (by decide)]
  · rw [h8 (by decide)]


/-- C7: the lone utterance "I.m in cambridge" (with an apostrophe)
yields the `AMBIGUOUS:cambridge` marker from the location extractor;
one agent turn on it from an empty record is not ready to match, and
the clarifying question chosen is the distinguished Cambridge
disambiguation question, which differs from the generic location
question. -/
theorem ambiguous_cambridge_spec :
    extract_location ("I" ++ apoS ++ "m in cambridge").data =
      some "AMBIGUOUS:cambridge" ∧
    (ConversationAgent.step ⟨0, 9⟩ ("I" ++ apoS ++ "m in cambridge")
      emptyPreferences).ready_to_match = false ∧
    (ConversationAgent.step ⟨0, 9⟩ ("I" ++ apoS ++ "m in cambridge")
      emptyPreferences).question_field = some "location_ambiguous_cambridge" ∧
    (ConversationAgent.step ⟨0, 9⟩ ("I" ++ apoS ++ "m in cambridge")
      emptyPreferences).question =
      some ClarifyingQuestionGeneratorTool.cambridgeDisambiguationQuestion ∧
    ClarifyingQuestionGeneratorTool.cambridgeDisambiguationQuestion ≠
      ClarifyingQuestionGeneratorTool.genericLocationQuestion := by
  refine ⟨by decide, by decide, by decide, by decide, by decide⟩

end GlowGo
